import Mathlib

/-!
Verification of the Sercomm serial framing protocol (sercomm.c / sercomm.h).

The C code is shallowly embedded: the shared configuration-plus-state
struct sercomm becomes the structure SC, byte memory becomes total
functions Nat → Nat (a cell per index, holding the byte stored there),
and the callbacks (timestamp writer, hasher, reset handler, command
handlers) become data: the timestamp callback is modelled by the bytes
it writes, the hasher by a pure function from the hashed byte range to
the hash bytes, and handler invocations are recorded as events returned
next to the new state.  Machine arithmetic is Nat with an explicit
mod where the corresponding C computation is performed in a 32-bit
(resp. 8-bit) unsigned variable and can wrap.
-/

namespace Sercomm

/-- Modulus of the 32-bit unsigned type sc_size_t / sc_cmd_t / sc_cctrl_t. -/
def U32 : Nat := 4294967296

/-- SERCOMM_OMIT_RESET: sentinel value (UINT8_MAX) disabling reset detection. -/
def SERCOMM_OMIT_RESET : Nat := 255

/-- SERCOMM_IGNORE_MSG_VALID_LENGTH: sentinel (UINT32_MAX) selecting the
maximum-length policy instead of the fixed-length policy. -/
def SERCOMM_IGNORE_MSG_VALID_LENGTH : Nat := 4294967295

/-- First n entries of a list, padded with zeros beyond its length: the bytes a
callback or memcpy reads from a C array of declared size n. -/
def padTo (l : List Nat) (n : Nat) : List Nat :=
  (List.range n).map (fun j => l.getD j 0)

/-- Write the bytes of l into the memory buf starting at offset off
(memcpy semantics). -/
def writeBytes (buf : Nat → Nat) (off : Nat) (l : List Nat) : Nat → Nat :=
  fun i => if off ≤ i ∧ i < off + l.length then l.getD (i - off) 0 else buf i

/-- Read n bytes from the memory buf starting at offset off. -/
def readBytes (buf : Nat → Nat) (off n : Nat) : List Nat :=
  (List.range n).map (fun j => buf (off + j))

/-- In-memory bytes of an unsigned value of the given width, least significant
byte first (the host-native representation used by put_field / get_field). -/
def fieldBytes (v w : Nat) : List Nat :=
  (List.range w).map (fun j => v / 256 ^ j % 256)

/-- put_field: store a value of width 1, 2 or 4 at offset off; any other width
is a no-op (the switch has no default case). -/
def put_field (buf : Nat → Nat) (off v w : Nat) : Nat → Nat :=
  if w = 1 ∨ w = 2 ∨ w = 4 then writeBytes buf off (fieldBytes v w) else buf

/-- get_field: read a value of width 1, 2 or 4 from offset off; any other
width is a no-op, leaving the destination variable at its old value. -/
def read_field (buf : Nat → Nat) (off w old : Nat) : Nat :=
  if w = 1 ∨ w = 2 ∨ w = 4 then
    ((List.range w).map (fun j => buf (off + j) * 256 ^ j)).sum
  else old

/-- The struct sercomm of sercomm.h: the frame-layout configuration together
with the decoder state embedded in it.  Callbacks are modelled by data:
ts is the list of bytes the timestamp callback writes (none = NULL pointer),
hash maps the hashed byte range to the hash bytes (none = NULL pointer),
reset records whether a reset callback is installed, and priv is the opaque
user context passed to command handlers. -/
@[ext]
structure SC where
  cmd_bytes : Nat
  ts_bytes : Nat
  ts : Option (List Nat)
  len_bytes : Nat
  hash_bytes : Nat
  hash : Option (List Nat → List Nat)
  comm_ctrl_bytes : Nat
  frame_start_bytes : Nat
  reset_byte : Nat
  reset_bytes : Nat
  reset : Bool
  buffer : Nat → Nat
  message_valid_len : Nat
  message_max_len : Nat
  priv : Nat
  buffer_len : Nat
  message_len : Nat
  buffer_reset_bytes : Nat
  frame_start : List Nat

/-- An entry of the struct sercomm_msg dispatch table: a command code and
whether a handler function is attached (hasFn = false is the terminating
sentinel with fn == NULL). -/
structure SercommMsg where
  cmd : Nat
  hasFn : Bool
deriving DecidableEq

/-- Observable callback invocations of one sc_get_message call: the reset
callback, or the command handler of dispatch-table entry idx invoked with
the decoded command, the offset of the timestamp field, the message length,
the offset of the payload, the payload bytes at that moment, the decoded
communication-control value, and the priv user context. -/
inductive Event where
  | reset : Event
  | handler (idx cmd tsOff mlen payloadOff : Nat)
      (payload : List Nat) (cc priv : Nat) : Event
deriving DecidableEq

/-- sc_make_message: build a frame for command cmd with control value cctrl
and payload msg of length mlen into the memory output of capacity olen.
Returns the new output memory and the returned sc_size_t (0 on failure).
All offsets and the total length live in 32-bit unsigned variables. -/
def sc_make_message (sc : SC) (cmd cctrl : Nat) (msg : Option (List Nat))
    (mlen : Nat) (output : Nat → Nat) (olen : Nat) : (Nat → Nat) × Nat :=
  let sumlen := (sc.frame_start_bytes + sc.cmd_bytes + sc.ts_bytes +
    sc.len_bytes + mlen + sc.hash_bytes + sc.comm_ctrl_bytes) % U32
  if sumlen > olen then (output, 0)
  else if mlen > 0 ∧ msg = none then (output, 0)
  else
    let out1 := if sc.frame_start_bytes > 0 then
        writeBytes output 0 (padTo sc.frame_start sc.frame_start_bytes)
      else output
    let x := sc.frame_start_bytes % U32
    let out2 := put_field out1 x cmd sc.cmd_bytes
    let x := (x + sc.cmd_bytes) % U32
    let out3 := if sc.ts_bytes > 0 then
        match sc.ts with
        | some t => writeBytes out2 x (padTo t sc.ts_bytes)
        | none => out2
      else out2
    let x := (x + sc.ts_bytes) % U32
    let out4 := put_field out3 x mlen sc.len_bytes
    let x := (x + sc.len_bytes) % U32
    let out5 := writeBytes out4 x (padTo (msg.getD []) mlen)
    let x := (x + mlen) % U32
    let out6 := if sc.hash_bytes > 0 then
        writeBytes out5 x (List.replicate sc.hash_bytes 0)
      else out5
    let x := (x + sc.hash_bytes) % U32
    let out7 := if sc.comm_ctrl_bytes > 0 then
        put_field out6 x cctrl sc.comm_ctrl_bytes
      else out6
    let x := (x + (U32 - sc.hash_bytes % U32)) % U32
    let hashlen := (sc.cmd_bytes + sc.ts_bytes + sc.len_bytes + mlen) % U32
    let out8 := if sc.hash_bytes > 0 then
        match sc.hash with
        | some hf =>
            writeBytes out7 x
              (padTo (hf (readBytes out7 sc.frame_start_bytes hashlen))
                sc.hash_bytes)
        | none => out7
      else out7
    (out8, sumlen)

/-- Wrap-around subtraction of the 32-bit unsigned type. -/
def sub32 (a b : Nat) : Nat := (a + (U32 - b % U32)) % U32

/-- shift_message: move amount bytes of the buffer starting at offset down to
the beginning and decrease buffer_len by offset (32-bit arithmetic). -/
def shift_message (sc : SC) (offset amount : Nat) : SC :=
  { sc with
    buffer := fun j => if j < amount then sc.buffer (j + offset) else sc.buffer j,
    buffer_len := sub32 sc.buffer_len offset }

/-- The dispatch loop of sc_get_message: scan the table in order, stop at the
first entry whose fn is NULL, and return the index of the first entry whose
command matches. -/
def dispatchScan : List SercommMsg → Nat → Option Nat
  | [], _ => none
  | e :: rest, c =>
    if e.hasFn = false then none
    else if e.cmd = c then some 0
    else (dispatchScan rest c).map (· + 1)

/-- The checkpoint chain of sc_get_message, run after the byte has been
appended and the reset-sequence check has not returned: the sync checkpoint,
the header checkpoint, and the completion checkpoint, each an exact equality
on buffer_len. -/
def sc_checkpoints (sc : SC) (sm : List SercommMsg) : SC × List Event :=
  let sum1 := (sc.frame_start_bytes + sc.cmd_bytes + sc.ts_bytes +
    sc.len_bytes) % U32
  let sum2 := (sc.frame_start_bytes + sc.cmd_bytes + sc.ts_bytes +
    sc.len_bytes + sc.message_len + sc.hash_bytes + sc.comm_ctrl_bytes) % U32
  if sc.buffer_len = sc.frame_start_bytes then
    if readBytes sc.buffer 0 sc.frame_start_bytes ≠
        padTo sc.frame_start sc.frame_start_bytes then
      (shift_message sc 1 (sc.frame_start_bytes - 1), [])
    else (sc, [])
  else if sc.buffer_len = sum1 then
    let ml := read_field sc.buffer (sum1 - sc.len_bytes) sc.len_bytes
      sc.message_len
    let sc1 := { sc with message_len := ml }
    if sc1.message_valid_len ≠ SERCOMM_IGNORE_MSG_VALID_LENGTH then
      if sc1.message_len ≠ sc1.message_valid_len then
        ({ sc1 with buffer_len := 0 }, [])
      else (sc1, [])
    else
      if sc1.message_len > sc1.message_max_len then
        ({ sc1 with buffer_len := 0 }, [])
      else (sc1, [])
  else if sc.buffer_len = sum2 then
    match sc.hash with
    | some hf =>
      let hlen := (sc.cmd_bytes + sc.ts_bytes + sc.len_bytes +
        sc.message_len) % U32
      let buf1 := writeBytes sc.buffer sc.buffer_len
        (padTo (hf (readBytes sc.buffer sc.frame_start_bytes hlen))
          sc.hash_bytes)
      let hoff := (hlen + sc.frame_start_bytes) % U32
      if readBytes buf1 sc.buffer_len sc.hash_bytes ≠
          readBytes buf1 hoff sc.hash_bytes then
        ({ sc with buffer := buf1, buffer_len := 0 }, [])
      else
        let c := read_field buf1 sc.frame_start_bytes sc.cmd_bytes 0
        let cc := if sc.comm_ctrl_bytes > 0 then
            read_field buf1 (sub32 sc.buffer_len sc.comm_ctrl_bytes)
              sc.comm_ctrl_bytes 0
          else 0
        match dispatchScan sm c with
        | some i =>
          ({ sc with buffer := buf1, buffer_len := 0 },
            [Event.handler i c (sc.frame_start_bytes + sc.cmd_bytes)
              sc.message_len sum1 (readBytes buf1 sum1 sc.message_len) cc
              sc.priv])
        | none => ({ sc with buffer := buf1, buffer_len := 0 }, [])
    | none => (sc, [])
  else (sc, [])

/-- sc_get_message: append the received byte to the buffer, run the
reset-sequence detector (which may invoke the reset callback, flush, and
return immediately), and otherwise fall through to the checkpoint chain.
Returns the new state and the callback invocations of this call. -/
def sc_get_message (sc : SC) (sm : List SercommMsg) (byte : Nat) :
    SC × List Event :=
  let sc1 := { sc with
    buffer := writeBytes sc.buffer sc.buffer_len [byte],
    buffer_len := (sc.buffer_len + 1) % U32 }
  if sc1.reset_bytes ≠ SERCOMM_OMIT_RESET then
    let sc2 := { sc1 with buffer_reset_bytes :=
      if byte = sc1.reset_byte then (sc1.buffer_reset_bytes + 1) % 256 else 0 }
    if sc2.reset_bytes = sc2.buffer_reset_bytes then
      ({ sc2 with buffer_len := 0 },
        if sc2.reset then [Event.reset] else [])
    else sc_checkpoints sc2 sm
  else sc_checkpoints sc1 sm

/-- Feed a list of bytes one at a time into sc_get_message, collecting the
events of every call in order. -/
def sc_feed (sc : SC) (sm : List SercommMsg) (bytes : List Nat) :
    SC × List Event :=
  bytes.foldl (fun a b =>
    let r := sc_get_message a.1 sm b
    (r.1, a.2 ++ r.2)) (sc, [])

/-- The list of bytes sc_make_message produces: the first r bytes of the
output memory, where r is its return value, starting from an all-zero
output buffer. -/
def sc_encode (sc : SC) (cmd cctrl : Nat) (msg : Option (List Nat))
    (mlen olen : Nat) : List Nat :=
  let r := sc_make_message sc cmd cctrl msg mlen (fun _ => 0) olen
  (List.range r.2).map r.1

/-! Spec-side frame layout (refinement reference): the byte layout the spec
describes in §4.2/§6 — sync pattern, command, timestamp, length, payload,
hash field, control value — against which the encoder output is compared. -/

/-- Bytes of the timestamp field: what the timestamp callback writes when one
is configured, zeros otherwise (the encoder is compared against this only
for a zero-initialized output, or under the hypothesis that a callback is
configured). -/
def tsField (sc : SC) : List Nat :=
  match sc.ts with
  | some t => padTo t sc.ts_bytes
  | none => List.replicate sc.ts_bytes 0

/-- The byte range the hash covers: command field through end of payload
(sync pattern and control field excluded). -/
def hashInput (sc : SC) (cmd mlen : Nat) (p : List Nat) : List Nat :=
  fieldBytes cmd sc.cmd_bytes ++ tsField sc ++ fieldBytes mlen sc.len_bytes ++
    padTo p mlen

/-- Bytes of the hash field: the configured hasher applied to the hashed
range, or the zero fill when no hasher is configured. -/
def hashField (sc : SC) (cmd mlen : Nat) (p : List Nat) : List Nat :=
  match sc.hash with
  | some hf => padTo (hf (hashInput sc cmd mlen p)) sc.hash_bytes
  | none => List.replicate sc.hash_bytes 0

/-- Expected layout of a whole frame per the spec: sync pattern, command,
timestamp, length, payload, hash field, control value, in this exact order. -/
def frameBytes (sc : SC) (cmd cctrl mlen : Nat) (p : List Nat) : List Nat :=
  padTo sc.frame_start sc.frame_start_bytes ++ fieldBytes cmd sc.cmd_bytes ++
    tsField sc ++ fieldBytes mlen sc.len_bytes ++ padTo p mlen ++
    hashField sc cmd mlen p ++ fieldBytes cctrl sc.comm_ctrl_bytes

/-- Mathematical (non-wrapping) total frame length of a configuration for a
payload of length mlen. -/
def frameLen (sc : SC) (mlen : Nat) : Nat :=
  sc.frame_start_bytes + sc.cmd_bytes + sc.ts_bytes + sc.len_bytes + mlen +
    sc.hash_bytes + sc.comm_ctrl_bytes

/-- Default entry used by getD when indexing the dispatch table. -/
def sentinelMsg : SercommMsg := ⟨0, false⟩
/-- The configuration part of struct sercomm: everything except the buffer
and the three mutable decoder counters. -/
def sameConfig (a b : SC) : Prop :=
  a.cmd_bytes = b.cmd_bytes ∧ a.ts_bytes = b.ts_bytes ∧ a.ts = b.ts ∧
  a.len_bytes = b.len_bytes ∧ a.hash_bytes = b.hash_bytes ∧
  a.hash = b.hash ∧ a.comm_ctrl_bytes = b.comm_ctrl_bytes ∧
  a.frame_start_bytes = b.frame_start_bytes ∧ a.reset_byte = b.reset_byte ∧
  a.reset_bytes = b.reset_bytes ∧ a.reset = b.reset ∧
  a.message_valid_len = b.message_valid_len ∧
  a.message_max_len = b.message_max_len ∧ a.priv = b.priv ∧
  a.frame_start = b.frame_start
/-! The encoder as a stack of named write stages (one per statement of
sc_make_message), used to reason about the output layout.  The offsets are
the plain sums; sc_make_message_eq shows they agree with the 32-bit
offsets of the definition whenever the frame length does not wrap. -/

def mmOut1 (sc : SC) (output : Nat → Nat) : Nat → Nat :=
  if sc.frame_start_bytes > 0 then
    writeBytes output 0 (padTo sc.frame_start sc.frame_start_bytes)
  else output

def mmOut2 (sc : SC) (cmd : Nat) (output : Nat → Nat) : Nat → Nat :=
  put_field (mmOut1 sc output) sc.frame_start_bytes cmd sc.cmd_bytes

def mmOut3 (sc : SC) (cmd : Nat) (output : Nat → Nat) : Nat → Nat :=
  if sc.ts_bytes > 0 then
    match sc.ts with
    | some t => writeBytes (mmOut2 sc cmd output)
        (sc.frame_start_bytes + sc.cmd_bytes) (padTo t sc.ts_bytes)
    | none => mmOut2 sc cmd output
  else mmOut2 sc cmd output

def mmOut4 (sc : SC) (cmd mlen : Nat) (output : Nat → Nat) : Nat → Nat :=
  put_field (mmOut3 sc cmd output)
    (sc.frame_start_bytes + sc.cmd_bytes + sc.ts_bytes) mlen sc.len_bytes

def mmOut5 (sc : SC) (cmd mlen : Nat) (p : List Nat) (output : Nat → Nat) :
    Nat → Nat :=
  writeBytes (mmOut4 sc cmd mlen output)
    (sc.frame_start_bytes + sc.cmd_bytes + sc.ts_bytes + sc.len_bytes)
    (padTo p mlen)

def mmOut6 (sc : SC) (cmd mlen : Nat) (p : List Nat) (output : Nat → Nat) :
    Nat → Nat :=
  if sc.hash_bytes > 0 then
    writeBytes (mmOut5 sc cmd mlen p output)
      (sc.frame_start_bytes + sc.cmd_bytes + sc.ts_bytes + sc.len_bytes + mlen)
      (List.replicate sc.hash_bytes 0)
  else mmOut5 sc cmd mlen p output

def mmOut7 (sc : SC) (cmd cctrl mlen : Nat) (p : List Nat)
    (output : Nat → Nat) : Nat → Nat :=
  if sc.comm_ctrl_bytes > 0 then
    put_field (mmOut6 sc cmd mlen p output)
      (sc.frame_start_bytes + sc.cmd_bytes + sc.ts_bytes + sc.len_bytes +
        mlen + sc.hash_bytes) cctrl sc.comm_ctrl_bytes
  else mmOut6 sc cmd mlen p output

def mmOut8 (sc : SC) (cmd cctrl mlen : Nat) (p : List Nat)
    (output : Nat → Nat) : Nat → Nat :=
  if sc.hash_bytes > 0 then
    match sc.hash with
    | some hf =>
        writeBytes (mmOut7 sc cmd cctrl mlen p output)
          (sc.frame_start_bytes + sc.cmd_bytes + sc.ts_bytes + sc.len_bytes +
            mlen)
          (padTo (hf (readBytes (mmOut7 sc cmd cctrl mlen p output)
              sc.frame_start_bytes
              (sc.cmd_bytes + sc.ts_bytes + sc.len_bytes + mlen)))
            sc.hash_bytes)
    | none => mmOut7 sc cmd cctrl mlen p output
  else mmOut7 sc cmd cctrl mlen p output
/-- Configuration-side hypotheses of the round trip: supported field widths,
a hasher configured (with at least one hash byte), values that fit their
fields, a payload satisfying the length policy, and reset detection either
disabled or unable to fire on the frame bytes. -/
structure RTH (sc : SC) (cmd cctrl mlen : Nat) (p : List Nat) : Prop where
  hcw : sc.cmd_bytes = 1 ∨ sc.cmd_bytes = 2 ∨ sc.cmd_bytes = 4
  hlw : sc.len_bytes = 1 ∨ sc.len_bytes = 2 ∨ sc.len_bytes = 4
  hctw : sc.comm_ctrl_bytes = 0 ∨ sc.comm_ctrl_bytes = 1 ∨
    sc.comm_ctrl_bytes = 2 ∨ sc.comm_ctrl_bytes = 4
  hhs : sc.hash.isSome
  hhw : 0 < sc.hash_bytes
  hsmall : frameLen sc mlen < U32
  hml : mlen < 256 ^ sc.len_bytes
  hp : p.length = mlen
  hcmd : cmd < 256 ^ sc.cmd_bytes
  hcc : cctrl < 256 ^ sc.comm_ctrl_bytes
  hpol1 : sc.message_valid_len ≠ SERCOMM_IGNORE_MSG_VALID_LENGTH →
    mlen = sc.message_valid_len
  hpol2 : sc.message_valid_len = SERCOMM_IGNORE_MSG_VALID_LENGTH →
    mlen ≤ sc.message_max_len
  hres : sc.reset_bytes = SERCOMM_OMIT_RESET ∨ (sc.reset_bytes ≠ 0 ∧
    ∀ b ∈ frameBytes sc cmd cctrl mlen p, b ≠ sc.reset_byte)

/-- Decoder state after accumulating the first k bytes of the frame from a
flushed state: buffer holds the frame prefix, and message_len has been
decoded once the header checkpoint has passed. -/
def accumState (sc : SC) (frame : List Nat) (mlen k : Nat) : SC :=
  { sc with
    buffer := fun j => if j < k then frame.getD j 0 else sc.buffer j,
    buffer_len := k,
    message_len := if sc.frame_start_bytes + sc.cmd_bytes + sc.ts_bytes +
        sc.len_bytes ≤ k then mlen
      else sc.message_len,
    buffer_reset_bytes := if k = 0 ∨ sc.reset_bytes = SERCOMM_OMIT_RESET then
        sc.buffer_reset_bytes
      else 0 }

/-- State entering the checkpoint chain while processing frame byte k: the
byte is appended but message_len still reflects only the first k bytes. -/
def entryState (sc : SC) (frame : List Nat) (mlen k : Nat) : SC :=
  { sc with
    buffer := fun j => if j < k + 1 then frame.getD j 0 else sc.buffer j,
    buffer_len := k + 1,
    message_len := if sc.frame_start_bytes + sc.cmd_bytes + sc.ts_bytes +
        sc.len_bytes ≤ k then mlen
      else sc.message_len,
    buffer_reset_bytes := if sc.reset_bytes = SERCOMM_OMIT_RESET then
        sc.buffer_reset_bytes
      else 0 }
/-! Concrete configurations used to instantiate the claim theorems. -/

/-- A demonstration configuration: two sync bytes 00 01, a one-byte command,
no timestamp, a one-byte length, a one-byte additive checksum, a one-byte
control field, reset detection disabled, maximum payload length 10. -/
def scDemo : SC :=
  { cmd_bytes := 1, ts_bytes := 0, ts := none, len_bytes := 1,
    hash_bytes := 1, hash := some (fun l => [l.sum % 256]),
    comm_ctrl_bytes := 1, frame_start_bytes := 2, reset_byte := 0,
    reset_bytes := SERCOMM_OMIT_RESET, reset := false,
    buffer := fun _ => 0,
    message_valid_len := SERCOMM_IGNORE_MSG_VALID_LENGTH,
    message_max_len := 10, priv := 0, buffer_len := 0, message_len := 0,
    buffer_reset_bytes := 0, frame_start := [0, 1] }

/-- A demonstration dispatch table: handlers for commands 7 and 5, then the
NULL-fn sentinel. -/
def smDemo : List SercommMsg := [⟨7, true⟩, ⟨5, true⟩, ⟨0, false⟩]

/-- The configuration of claim C2: scDemo without hash and control fields
(and, like scDemo, without a hasher a fortiori). -/
def scC2 : SC :=
  { scDemo with hash_bytes := 0, hash := none, comm_ctrl_bytes := 0 }

/-- scDemo with reset detection enabled: two consecutive 0xAA bytes trigger
the reset logic (no reset callback installed). -/
def scReset : SC := { scDemo with reset_byte := 170, reset_bytes := 2 }

/-- scDemo without the control field and with reset detection enabled: three
consecutive 0xFF bytes trigger the installed reset callback. -/
def scRun : SC :=
  { scDemo with
    comm_ctrl_bytes := 0
    reset_byte := 255
    reset_bytes := 3
    reset := true }

/-- scRun with a reset run length of two. -/
def scRun2 : SC := { scRun with reset_bytes := 2 }

/-! Basic lemmas about the byte-buffer helpers. -/

theorem rangeMap_getD (f : Nat → Nat) (n j : Nat) (h : j < n) :
    ((List.range n).map f).getD j 0 = f j := by
  rw [List.getD_eq_getElem?_getD, List.getElem?_map, List.getElem?_range h]
  rfl

theorem padTo_length (l : List Nat) (n : Nat) : (padTo l n).length = n := by
  simp [padTo]

theorem padTo_getD (l : List Nat) (n j : Nat) (h : j < n) :
    (padTo l n).getD j 0 = l.getD j 0 := rangeMap_getD _ n j h

theorem padTo_self (l : List Nat) : padTo l l.length = l := by
  apply List.ext_getElem (by simp [padTo])
  intro j h1 h2
  have := padTo_getD l l.length j (by simpa [padTo] using h1)
  simpa [List.getD_eq_getElem?_getD, List.getElem?_eq_getElem, h1, h2] using this

theorem fieldBytes_length (v w : Nat) : (fieldBytes v w).length = w := by
  simp [fieldBytes]

theorem fieldBytes_getD (v w j : Nat) (h : j < w) :
    (fieldBytes v w).getD j 0 = v / 256 ^ j % 256 := rangeMap_getD _ w j h

theorem readBytes_length (buf : Nat → Nat) (off n : Nat) :
    (readBytes buf off n).length = n := by
  simp [readBytes]

theorem readBytes_getD (buf : Nat → Nat) (off n j : Nat) (h : j < n) :
    (readBytes buf off n).getD j 0 = buf (off + j) := rangeMap_getD _ n j h

theorem readBytes_congr (f g : Nat → Nat) (off n : Nat)
    (h : ∀ j, j < n → f (off + j) = g (off + j)) :
    readBytes f off n = readBytes g off n := by
  unfold readBytes
  exact List.map_congr_left (fun j hj => h j (List.mem_range.mp hj))

theorem writeBytes_at (buf : Nat → Nat) (off : Nat) (l : List Nat) (i : Nat)
    (h1 : off ≤ i) (h2 : i < off + l.length) :
    writeBytes buf off l i = l.getD (i - off) 0 := by
  simp [writeBytes, h1, h2]

theorem writeBytes_lt (buf : Nat → Nat) (off : Nat) (l : List Nat) (i : Nat)
    (h : i < off) : writeBytes buf off l i = buf i := by
  simp [writeBytes]; omega

theorem writeBytes_ge (buf : Nat → Nat) (off : Nat) (l : List Nat) (i : Nat)
    (h : off + l.length ≤ i) : writeBytes buf off l i = buf i := by
  simp [writeBytes]; omega

theorem getD_append_lt (l₁ l₂ : List Nat) (n : Nat) (h : n < l₁.length) :
    (l₁ ++ l₂).getD n 0 = l₁.getD n 0 := by
  rw [List.getD_eq_getElem?_getD, List.getD_eq_getElem?_getD,
    List.getElem?_append, if_pos h]

theorem getD_append_ge (l₁ l₂ : List Nat) (n : Nat) (h : l₁.length ≤ n) :
    (l₁ ++ l₂).getD n 0 = l₂.getD (n - l₁.length) 0 := by
  rw [List.getD_eq_getElem?_getD, List.getD_eq_getElem?_getD,
    List.getElem?_append, if_neg (by omega)]

theorem frameBytes_length (sc : SC) (cmd cctrl mlen : Nat) (p : List Nat) :
    (frameBytes sc cmd cctrl mlen p).length = frameLen sc mlen := by
  simp [frameBytes, frameLen, padTo_length, fieldBytes_length, tsField,
    hashField]
  cases sc.ts <;> cases sc.hash <;> simp [padTo_length] <;> ring

/-! Feeding lemmas. -/

theorem sc_feed_nil (sc : SC) (sm : List SercommMsg) :
    sc_feed sc sm [] = (sc, []) := rfl

theorem sc_feed_go (sm : List SercommMsg) (bs : List Nat) :
    ∀ (sc : SC) (acc : List Event),
    bs.foldl (fun a b =>
        let r := sc_get_message a.1 sm b
        (r.1, a.2 ++ r.2)) (sc, acc) =
      ((sc_feed sc sm bs).1, acc ++ (sc_feed sc sm bs).2) := by
  induction bs with
  | nil => intro sc acc; simp [sc_feed]
  | cons b bs ih =>
    intro sc acc
    simp only [sc_feed, List.foldl_cons]
    rw [ih, ih]
    simp

theorem sc_feed_cons (sc : SC) (sm : List SercommMsg) (b : Nat)
    (bs : List Nat) :
    sc_feed sc sm (b :: bs) =
      (((sc_feed (sc_get_message sc sm b).1 sm bs).1),
        (sc_get_message sc sm b).2 ++
          (sc_feed (sc_get_message sc sm b).1 sm bs).2) := by
  simp only [sc_feed, List.foldl_cons]
  rw [sc_feed_go]
  simp [sc_feed]

theorem sc_feed_append (sc : SC) (sm : List SercommMsg) (xs ys : List Nat) :
    sc_feed sc sm (xs ++ ys) =
      ((sc_feed (sc_feed sc sm xs).1 sm ys).1,
        (sc_feed sc sm xs).2 ++ (sc_feed (sc_feed sc sm xs).1 sm ys).2) := by
  induction xs generalizing sc with
  | nil => simp [sc_feed_nil]
  | cons b xs ih =>
    rw [List.cons_append, sc_feed_cons, sc_feed_cons, ih]
    simp

/-! Field codec round trip. -/

theorem read_field_eq (buf : Nat → Nat) (off w old : Nat)
    (hw : w = 1 ∨ w = 2 ∨ w = 4) :
    read_field buf off w old =
      ((List.range w).map (fun j => buf (off + j) * 256 ^ j)).sum := by
  unfold read_field
  rw [if_pos hw]

theorem read_field_value (buf : Nat → Nat) (off w old v : Nat)
    (hw : w = 1 ∨ w = 2 ∨ w = 4) (hv : v < 256 ^ w)
    (h : ∀ j, j < w → buf (off + j) = v / 256 ^ j % 256) :
    read_field buf off w old = v := by
  obtain rfl | rfl | rfl := hw
  · rw [read_field_eq buf off 1 old (by norm_num)]
    have h0 := h 0 (by norm_num)
    simp only [List.range_succ, List.range_zero, List.nil_append,
      List.map_cons, List.map_nil, List.sum_cons, List.sum_nil] at *
    norm_num at h0 hv ⊢
    omega
  · rw [read_field_eq buf off 2 old (by norm_num)]
    have h0 := h 0 (by norm_num)
    have h1 := h 1 (by norm_num)
    simp only [List.range_succ, List.range_zero, List.nil_append,
      List.map_append, List.map_cons, List.map_nil, List.sum_append,
      List.sum_cons, List.sum_nil] at *
    norm_num at h0 h1 hv ⊢
    omega
  · rw [read_field_eq buf off 4 old (by norm_num)]
    have h0 := h 0 (by norm_num)
    have h1 := h 1 (by norm_num)
    have h2 := h 2 (by norm_num)
    have h3 := h 3 (by norm_num)
    simp only [List.range_succ, List.range_zero, List.nil_append,
      List.map_append, List.map_cons, List.map_nil, List.sum_append,
      List.sum_cons, List.sum_nil] at *
    norm_num at h0 h1 h2 h3 hv ⊢
    omega

/-! Dispatch table scan: characterization as first match before the sentinel. -/


theorem dispatchScan_spec (sm : List SercommMsg) (c i : Nat) :
    dispatchScan sm c = some i ↔
      (i < sm.length ∧ (sm.getD i sentinelMsg).hasFn = true ∧
        (sm.getD i sentinelMsg).cmd = c ∧
        ∀ j, j < i → (sm.getD j sentinelMsg).hasFn = true ∧
          (sm.getD j sentinelMsg).cmd ≠ c) := by
  induction sm generalizing i with
  | nil => simp [dispatchScan]
  | cons e rest ih =>
    by_cases hf : e.hasFn = false
    · simp only [dispatchScan, hf, if_pos rfl]
      constructor
      · intro h; exact absurd h (by simp)
      · rintro ⟨hi, h1, h2, h3⟩
        cases i with
        | zero => rw [List.getD_cons_zero] at h1; rw [h1] at hf; cases hf
        | succ k =>
          have := (h3 0 (Nat.succ_pos k)).1
          rw [List.getD_cons_zero] at this
          rw [this] at hf; cases hf
    · have hft : e.hasFn = true := by
        cases hfn : e.hasFn
        · exact absurd hfn hf
        · rfl
      by_cases hc : e.cmd = c
      · simp only [dispatchScan, hf, if_neg, hc, if_pos rfl]
        constructor
        · intro h
          have hi0 : i = 0 := by
            have := Option.some.inj h
            omega
          subst hi0
          refine ⟨by simp, by simpa using hft, by simpa using hc, ?_⟩
          intro j hj; omega
        · rintro ⟨hi, h1, h2, h3⟩
          cases i with
          | zero => rfl
          | succ k =>
            have := (h3 0 (Nat.succ_pos k)).2
            rw [List.getD_cons_zero] at this
            exact absurd hc this
      · have hds : dispatchScan (e :: rest) c =
            (dispatchScan rest c).map (· + 1) := by
          rw [dispatchScan]
          simp [hft, hc]
        rw [hds]
        cases i with
        | zero =>
          constructor
          · intro h
            rcases Option.map_eq_some.mp h with ⟨k, _, hk⟩
            omega
          · rintro ⟨hi, h1, h2, h3⟩
            rw [List.getD_cons_zero] at h2
            exact absurd h2 hc
        | succ k =>
          have hmap : (dispatchScan rest c).map (· + 1) = some (k + 1) ↔
              dispatchScan rest c = some k := by
            constructor
            · intro h
              rcases Option.map_eq_some.mp h with ⟨m, hm, hmk⟩
              have : m = k := by omega
              rwa [this] at hm
            · intro h; rw [h]; rfl
          rw [hmap, ih k]
          constructor
          · rintro ⟨hi, h1, h2, h3⟩
            refine ⟨by simpa using Nat.succ_lt_succ hi, by simpa using h1,
              by simpa using h2, ?_⟩
            intro j hj
            cases j with
            | zero => exact ⟨by simpa using hft, by simpa using hc⟩
            | succ m =>
              have := h3 m (by omega)
              simpa using this
          · rintro ⟨hi, h1, h2, h3⟩
            refine ⟨by simpa using Nat.lt_of_succ_lt_succ hi,
              by simpa using h1, by simpa using h2, ?_⟩
            intro j hj
            have := h3 (j + 1) (by omega)
            simpa using this

theorem dispatchScan_none_iff (sm : List SercommMsg) (c : Nat) :
    dispatchScan sm c = none ↔ ∀ i, dispatchScan sm c ≠ some i := by
  cases h : dispatchScan sm c <;> simp

/-! Preservation of the configuration fields by the decoder. -/


theorem sameConfig_refl (a : SC) : sameConfig a a := by
  unfold sameConfig
  repeat' constructor

theorem sameConfig_trans {a b c : SC} (h1 : sameConfig a b)
    (h2 : sameConfig b c) : sameConfig a c := by
  unfold sameConfig at *
  obtain ⟨e1, e2, e3, e4, e5, e6, e7, e8, e9, e10, e11, e12, e13, e14, e15⟩ := h1
  obtain ⟨f1, f2, f3, f4, f5, f6, f7, f8, f9, f10, f11, f12, f13, f14, f15⟩ := h2
  refine ⟨?_, ?_, ?_, ?_, ?_, ?_, ?_, ?_, ?_, ?_, ?_, ?_, ?_, ?_, ?_⟩ <;>
    simp_all

theorem sc_checkpoints_config (sc : SC) (sm : List SercommMsg) :
    sameConfig (sc_checkpoints sc sm).1 sc ∧
      (sc_checkpoints sc sm).1.buffer_reset_bytes = sc.buffer_reset_bytes ∧
      Event.reset ∉ (sc_checkpoints sc sm).2 := by
  unfold sc_checkpoints shift_message
  dsimp only []
  repeat (first
    | exact ⟨⟨rfl, rfl, rfl, rfl, rfl, rfl, rfl, rfl, rfl, rfl, rfl, rfl, rfl,
        rfl, rfl⟩, rfl, by simp⟩
    | split)

theorem sc_get_message_config (sc : SC) (sm : List SercommMsg) (b : Nat) :
    sameConfig (sc_get_message sc sm b).1 sc := by
  unfold sc_get_message
  dsimp only []
  repeat (first
    | exact ⟨rfl, rfl, rfl, rfl, rfl, rfl, rfl, rfl, rfl, rfl, rfl, rfl, rfl,
        rfl, rfl⟩
    | exact sameConfig_trans ((sc_checkpoints_config _ sm).1)
        ⟨rfl, rfl, rfl, rfl, rfl, rfl, rfl, rfl, rfl, rfl, rfl, rfl, rfl,
          rfl, rfl⟩
    | split)

theorem sc_feed_config (sc : SC) (sm : List SercommMsg) (bs : List Nat) :
    sameConfig (sc_feed sc sm bs).1 sc := by
  induction bs generalizing sc with
  | nil => rw [sc_feed_nil]; exact sameConfig_refl sc
  | cons b bs ih =>
    rw [sc_feed_cons]
    exact sameConfig_trans (ih _) (sc_get_message_config sc sm b)


theorem sc_make_message_eq (sc : SC) (cmd cctrl mlen olen : Nat) (p : List Nat)
    (output : Nat → Nat) (hfit : frameLen sc mlen ≤ olen)
    (hsmall : frameLen sc mlen < U32) :
    sc_make_message sc cmd cctrl (some p) mlen output olen =
      (mmOut8 sc cmd cctrl mlen p output, frameLen sc mlen) := by
  have hU : frameLen sc mlen % U32 = frameLen sc mlen := Nat.mod_eq_of_lt hsmall
  unfold frameLen at hU hfit hsmall
  simp only [sc_make_message]
  rw [show (sc.frame_start_bytes + sc.cmd_bytes + sc.ts_bytes + sc.len_bytes +
    mlen + sc.hash_bytes + sc.comm_ctrl_bytes) % U32 =
    sc.frame_start_bytes + sc.cmd_bytes + sc.ts_bytes + sc.len_bytes + mlen +
      sc.hash_bytes + sc.comm_ctrl_bytes from hU]
  rw [if_neg (by simp only [U32] at *; omega)]
  rw [if_neg (by simp)]
  rw [show sc.frame_start_bytes % U32 = sc.frame_start_bytes from by simp only [U32] at *; omega]
  rw [show (sc.frame_start_bytes + sc.cmd_bytes) % U32 =
    sc.frame_start_bytes + sc.cmd_bytes from by simp only [U32] at *; omega]
  rw [show (sc.frame_start_bytes + sc.cmd_bytes + sc.ts_bytes) % U32 =
    sc.frame_start_bytes + sc.cmd_bytes + sc.ts_bytes from by simp only [U32] at *; omega]
  rw [show (sc.frame_start_bytes + sc.cmd_bytes + sc.ts_bytes + sc.len_bytes) %
    U32 = sc.frame_start_bytes + sc.cmd_bytes + sc.ts_bytes + sc.len_bytes from
    by simp only [U32] at *; omega]
  rw [show (sc.frame_start_bytes + sc.cmd_bytes + sc.ts_bytes + sc.len_bytes +
    mlen) % U32 = sc.frame_start_bytes + sc.cmd_bytes + sc.ts_bytes +
    sc.len_bytes + mlen from by simp only [U32] at *; omega]
  rw [show (sc.frame_start_bytes + sc.cmd_bytes + sc.ts_bytes + sc.len_bytes +
    mlen + sc.hash_bytes) % U32 = sc.frame_start_bytes + sc.cmd_bytes +
    sc.ts_bytes + sc.len_bytes + mlen + sc.hash_bytes from by simp only [U32] at *; omega]
  rw [show (sc.frame_start_bytes + sc.cmd_bytes + sc.ts_bytes + sc.len_bytes +
    mlen + sc.hash_bytes + (U32 - sc.hash_bytes % U32)) % U32 =
    sc.frame_start_bytes + sc.cmd_bytes + sc.ts_bytes + sc.len_bytes + mlen from
    by simp only [U32] at *; omega]
  rw [show (sc.cmd_bytes + sc.ts_bytes + sc.len_bytes + mlen) % U32 =
    sc.cmd_bytes + sc.ts_bytes + sc.len_bytes + mlen from by simp only [U32] at *; omega]
  unfold mmOut8 mmOut7 mmOut6 mmOut5 mmOut4 mmOut3 mmOut2 mmOut1
  rfl

/-! Pointwise characterization of each encoder write stage. -/

theorem replicate_getD (n j : Nat) (a : Nat) (h : j < n) :
    (List.replicate n a).getD j 0 = a := by
  rw [List.getD_eq_getElem?_getD, List.getElem?_replicate, if_pos h]
  rfl

theorem tsField_length (sc : SC) : (tsField sc).length = sc.ts_bytes := by
  unfold tsField
  cases sc.ts <;> simp [padTo_length]

theorem hashField_length (sc : SC) (cmd mlen : Nat) (p : List Nat) :
    (hashField sc cmd mlen p).length = sc.hash_bytes := by
  unfold hashField
  cases sc.hash <;> simp [padTo_length]

theorem mmOut1_in (sc : SC) (output : Nat → Nat) (i : Nat)
    (h : i < sc.frame_start_bytes) :
    mmOut1 sc output i = sc.frame_start.getD i 0 := by
  unfold mmOut1
  rw [if_pos (by omega)]
  rw [writeBytes_at _ _ _ _ (Nat.zero_le i) (by simp [padTo_length]; omega)]
  simpa using padTo_getD sc.frame_start sc.frame_start_bytes i h

theorem mmOut1_out (sc : SC) (output : Nat → Nat) (i : Nat)
    (h : sc.frame_start_bytes ≤ i) : mmOut1 sc output i = output i := by
  unfold mmOut1
  split
  · exact writeBytes_ge _ _ _ _ (by simp [padTo_length]; omega)
  · rfl

theorem mmOut2_in (sc : SC) (cmd : Nat) (output : Nat → Nat) (i : Nat)
    (hcw : sc.cmd_bytes = 1 ∨ sc.cmd_bytes = 2 ∨ sc.cmd_bytes = 4)
    (h1 : sc.frame_start_bytes ≤ i)
    (h2 : i < sc.frame_start_bytes + sc.cmd_bytes) :
    mmOut2 sc cmd output i =
      (fieldBytes cmd sc.cmd_bytes).getD (i - sc.frame_start_bytes) 0 := by
  unfold mmOut2 put_field
  rw [if_pos hcw]
  exact writeBytes_at _ _ _ _ h1 (by simp [fieldBytes_length]; omega)

theorem mmOut2_out (sc : SC) (cmd : Nat) (output : Nat → Nat) (i : Nat)
    (h : i < sc.frame_start_bytes ∨ sc.frame_start_bytes + sc.cmd_bytes ≤ i) :
    mmOut2 sc cmd output i = mmOut1 sc output i := by
  unfold mmOut2 put_field
  split
  · rcases h with h | h
    · exact writeBytes_lt _ _ _ _ h
    · exact writeBytes_ge _ _ _ _ (by simp [fieldBytes_length]; omega)
  · rfl

theorem mmOut3_some (sc : SC) (cmd : Nat) (output : Nat → Nat) (i : Nat)
    (t : List Nat) (hts : sc.ts = some t)
    (h1 : sc.frame_start_bytes + sc.cmd_bytes ≤ i)
    (h2 : i < sc.frame_start_bytes + sc.cmd_bytes + sc.ts_bytes) :
    mmOut3 sc cmd output i =
      (padTo t sc.ts_bytes).getD (i - (sc.frame_start_bytes + sc.cmd_bytes))
        0 := by
  unfold mmOut3
  rw [if_pos (by omega), hts]
  exact writeBytes_at _ _ _ _ h1 (by simp [padTo_length]; omega)

theorem mmOut3_none (sc : SC) (cmd : Nat) (output : Nat → Nat) (i : Nat)
    (hts : sc.ts = none) : mmOut3 sc cmd output i = mmOut2 sc cmd output i := by
  unfold mmOut3
  rw [hts]
  split <;> rfl

theorem mmOut3_out (sc : SC) (cmd : Nat) (output : Nat → Nat) (i : Nat)
    (h : i < sc.frame_start_bytes + sc.cmd_bytes ∨
      sc.frame_start_bytes + sc.cmd_bytes + sc.ts_bytes ≤ i) :
    mmOut3 sc cmd output i = mmOut2 sc cmd output i := by
  unfold mmOut3
  split
  · cases hts : sc.ts with
    | some t =>
      rcases h with h | h
      · exact writeBytes_lt _ _ _ _ h
      · exact writeBytes_ge _ _ _ _ (by simp [padTo_length]; omega)
    | none => rfl
  · rfl

theorem mmOut4_in (sc : SC) (cmd mlen : Nat) (output : Nat → Nat) (i : Nat)
    (hlw : sc.len_bytes = 1 ∨ sc.len_bytes = 2 ∨ sc.len_bytes = 4)
    (h1 : sc.frame_start_bytes + sc.cmd_bytes + sc.ts_bytes ≤ i)
    (h2 : i < sc.frame_start_bytes + sc.cmd_bytes + sc.ts_bytes +
      sc.len_bytes) :
    mmOut4 sc cmd mlen output i =
      (fieldBytes mlen sc.len_bytes).getD
        (i - (sc.frame_start_bytes + sc.cmd_bytes + sc.ts_bytes)) 0 := by
  unfold mmOut4 put_field
  rw [if_pos hlw]
  exact writeBytes_at _ _ _ _ h1 (by simp [fieldBytes_length]; omega)

theorem mmOut4_out (sc : SC) (cmd mlen : Nat) (output : Nat → Nat) (i : Nat)
    (h : i < sc.frame_start_bytes + sc.cmd_bytes + sc.ts_bytes ∨
      sc.frame_start_bytes + sc.cmd_bytes + sc.ts_bytes + sc.len_bytes ≤ i) :
    mmOut4 sc cmd mlen output i = mmOut3 sc cmd output i := by
  unfold mmOut4 put_field
  split
  · rcases h with h | h
    · exact writeBytes_lt _ _ _ _ h
    · exact writeBytes_ge _ _ _ _ (by simp [fieldBytes_length]; omega)
  · rfl

theorem mmOut5_in (sc : SC) (cmd mlen : Nat) (p : List Nat)
    (output : Nat → Nat) (i : Nat)
    (h1 : sc.frame_start_bytes + sc.cmd_bytes + sc.ts_bytes + sc.len_bytes ≤ i)
    (h2 : i < sc.frame_start_bytes + sc.cmd_bytes + sc.ts_bytes +
      sc.len_bytes + mlen) :
    mmOut5 sc cmd mlen p output i =
      p.getD (i - (sc.frame_start_bytes + sc.cmd_bytes + sc.ts_bytes +
        sc.len_bytes)) 0 := by
  unfold mmOut5
  rw [writeBytes_at _ _ _ _ h1 (by simp [padTo_length]; omega)]
  exact padTo_getD p mlen _ (by omega)

theorem mmOut5_out (sc : SC) (cmd mlen : Nat) (p : List Nat)
    (output : Nat → Nat) (i : Nat)
    (h : i < sc.frame_start_bytes + sc.cmd_bytes + sc.ts_bytes +
        sc.len_bytes ∨
      sc.frame_start_bytes + sc.cmd_bytes + sc.ts_bytes + sc.len_bytes +
        mlen ≤ i) :
    mmOut5 sc cmd mlen p output i = mmOut4 sc cmd mlen output i := by
  unfold mmOut5
  rcases h with h | h
  · exact writeBytes_lt _ _ _ _ h
  · exact writeBytes_ge _ _ _ _ (by simp [padTo_length]; omega)

theorem mmOut6_in (sc : SC) (cmd mlen : Nat) (p : List Nat)
    (output : Nat → Nat) (i : Nat)
    (h1 : sc.frame_start_bytes + sc.cmd_bytes + sc.ts_bytes + sc.len_bytes +
      mlen ≤ i)
    (h2 : i < sc.frame_start_bytes + sc.cmd_bytes + sc.ts_bytes +
      sc.len_bytes + mlen + sc.hash_bytes) :
    mmOut6 sc cmd mlen p output i = 0 := by
  unfold mmOut6
  rw [if_pos (by omega)]
  rw [writeBytes_at _ _ _ _ h1 (by simp; omega)]
  exact replicate_getD _ _ _ (by omega)

theorem mmOut6_out (sc : SC) (cmd mlen : Nat) (p : List Nat)
    (output : Nat → Nat) (i : Nat)
    (h : i < sc.frame_start_bytes + sc.cmd_bytes + sc.ts_bytes + sc.len_bytes +
        mlen ∨
      sc.frame_start_bytes + sc.cmd_bytes + sc.ts_bytes + sc.len_bytes + mlen +
        sc.hash_bytes ≤ i) :
    mmOut6 sc cmd mlen p output i = mmOut5 sc cmd mlen p output i := by
  unfold mmOut6
  split
  · rcases h with h | h
    · exact writeBytes_lt _ _ _ _ h
    · exact writeBytes_ge _ _ _ _ (by simp; omega)
  · rfl

theorem mmOut7_in (sc : SC) (cmd cctrl mlen : Nat) (p : List Nat)
    (output : Nat → Nat) (i : Nat)
    (hctw : sc.comm_ctrl_bytes = 1 ∨ sc.comm_ctrl_bytes = 2 ∨
      sc.comm_ctrl_bytes = 4)
    (h1 : sc.frame_start_bytes + sc.cmd_bytes + sc.ts_bytes + sc.len_bytes +
      mlen + sc.hash_bytes ≤ i)
    (h2 : i < sc.frame_start_bytes + sc.cmd_bytes + sc.ts_bytes +
      sc.len_bytes + mlen + sc.hash_bytes + sc.comm_ctrl_bytes) :
    mmOut7 sc cmd cctrl mlen p output i =
      (fieldBytes cctrl sc.comm_ctrl_bytes).getD
        (i - (sc.frame_start_bytes + sc.cmd_bytes + sc.ts_bytes +
          sc.len_bytes + mlen + sc.hash_bytes)) 0 := by
  unfold mmOut7 put_field
  rw [if_pos (by omega), if_pos hctw]
  exact writeBytes_at _ _ _ _ h1 (by simp [fieldBytes_length]; omega)

theorem mmOut7_out (sc : SC) (cmd cctrl mlen : Nat) (p : List Nat)
    (output : Nat → Nat) (i : Nat)
    (h : i < sc.frame_start_bytes + sc.cmd_bytes + sc.ts_bytes + sc.len_bytes +
        mlen + sc.hash_bytes ∨
      sc.frame_start_bytes + sc.cmd_bytes + sc.ts_bytes + sc.len_bytes + mlen +
        sc.hash_bytes + sc.comm_ctrl_bytes ≤ i) :
    mmOut7 sc cmd cctrl mlen p output i = mmOut6 sc cmd mlen p output i := by
  unfold mmOut7 put_field
  split
  · split
    · rcases h with h | h
      · exact writeBytes_lt _ _ _ _ (by omega)
      · exact writeBytes_ge _ _ _ _ (by simp [fieldBytes_length]; omega)
    · rfl
  · rfl

theorem mmOut8_some (sc : SC) (cmd cctrl mlen : Nat) (p : List Nat)
    (output : Nat → Nat) (i : Nat) (hf : List Nat → List Nat)
    (hh : sc.hash = some hf)
    (h1 : sc.frame_start_bytes + sc.cmd_bytes + sc.ts_bytes + sc.len_bytes +
      mlen ≤ i)
    (h2 : i < sc.frame_start_bytes + sc.cmd_bytes + sc.ts_bytes +
      sc.len_bytes + mlen + sc.hash_bytes) :
    mmOut8 sc cmd cctrl mlen p output i =
      (padTo (hf (readBytes (mmOut7 sc cmd cctrl mlen p output)
          sc.frame_start_bytes
          (sc.cmd_bytes + sc.ts_bytes + sc.len_bytes + mlen)))
        sc.hash_bytes).getD
        (i - (sc.frame_start_bytes + sc.cmd_bytes + sc.ts_bytes +
          sc.len_bytes + mlen)) 0 := by
  unfold mmOut8
  rw [if_pos (by omega), hh]
  exact writeBytes_at _ _ _ _ h1 (by simp [padTo_length]; omega)

theorem mmOut8_none (sc : SC) (cmd cctrl mlen : Nat) (p : List Nat)
    (output : Nat → Nat) (i : Nat) (hh : sc.hash = none) :
    mmOut8 sc cmd cctrl mlen p output i =
      mmOut7 sc cmd cctrl mlen p output i := by
  unfold mmOut8
  rw [hh]
  split <;> rfl

theorem mmOut8_out (sc : SC) (cmd cctrl mlen : Nat) (p : List Nat)
    (output : Nat → Nat) (i : Nat)
    (h : i < sc.frame_start_bytes + sc.cmd_bytes + sc.ts_bytes + sc.len_bytes +
        mlen ∨
      sc.frame_start_bytes + sc.cmd_bytes + sc.ts_bytes + sc.len_bytes + mlen +
        sc.hash_bytes ≤ i) :
    mmOut8 sc cmd cctrl mlen p output i =
      mmOut7 sc cmd cctrl mlen p output i := by
  unfold mmOut8
  split
  · cases hh : sc.hash with
    | some hf =>
      rcases h with h | h
      · exact writeBytes_lt _ _ _ _ h
      · exact writeBytes_ge _ _ _ _ (by simp [padTo_length]; omega)
    | none => rfl
  · rfl

/-! Indexing into the spec-side frame layout. -/

theorem list_eq_of_getD (l₁ l₂ : List Nat) (hlen : l₁.length = l₂.length)
    (h : ∀ j, j < l₁.length → l₁.getD j 0 = l₂.getD j 0) : l₁ = l₂ := by
  apply List.ext_getElem hlen
  intro i h1 h2
  have hi := h i h1
  rw [List.getD_eq_getElem?_getD, List.getD_eq_getElem?_getD,
    List.getElem?_eq_getElem h1, List.getElem?_eq_getElem h2] at hi
  simpa using hi

theorem frameBytes_getD_sync (sc : SC) (cmd cctrl mlen : Nat) (p : List Nat)
    (j : Nat) (h : j < sc.frame_start_bytes) :
    (frameBytes sc cmd cctrl mlen p).getD j 0 = sc.frame_start.getD j 0 := by
  unfold frameBytes
  rw [getD_append_lt _ _ _ (by
    simp [padTo_length, fieldBytes_length, tsField_length, hashField_length]
    omega)]
  rw [getD_append_lt _ _ _ (by
    simp [padTo_length, fieldBytes_length, tsField_length, hashField_length]
    omega)]
  rw [getD_append_lt _ _ _ (by
    simp [padTo_length, fieldBytes_length, tsField_length, hashField_length]
    omega)]
  rw [getD_append_lt _ _ _ (by
    simp [padTo_length, fieldBytes_length, tsField_length, hashField_length]
    omega)]
  rw [getD_append_lt _ _ _ (by
    simp [padTo_length, fieldBytes_length, tsField_length, hashField_length]
    omega)]
  rw [getD_append_lt _ _ _ (by simp [padTo_length]; omega)]
  exact padTo_getD _ _ _ h

theorem frameBytes_getD_cmd (sc : SC) (cmd cctrl mlen : Nat) (p : List Nat)
    (j : Nat) (h1 : sc.frame_start_bytes ≤ j)
    (h2 : j < sc.frame_start_bytes + sc.cmd_bytes) :
    (frameBytes sc cmd cctrl mlen p).getD j 0 =
      (fieldBytes cmd sc.cmd_bytes).getD (j - sc.frame_start_bytes) 0 := by
  unfold frameBytes
  rw [getD_append_lt _ _ _ (by
    simp [padTo_length, fieldBytes_length, tsField_length, hashField_length]
    omega)]
  rw [getD_append_lt _ _ _ (by
    simp [padTo_length, fieldBytes_length, tsField_length, hashField_length]
    omega)]
  rw [getD_append_lt _ _ _ (by
    simp [padTo_length, fieldBytes_length, tsField_length, hashField_length]
    omega)]
  rw [getD_append_lt _ _ _ (by
    simp [padTo_length, fieldBytes_length, tsField_length, hashField_length]
    omega)]
  rw [getD_append_lt _ _ _ (by
    simp [padTo_length, fieldBytes_length, tsField_length, hashField_length]
    omega)]
  rw [getD_append_ge _ _ _ (by simp [padTo_length]; omega)]
  rw [padTo_length]

theorem frameBytes_getD_ts (sc : SC) (cmd cctrl mlen : Nat) (p : List Nat)
    (j : Nat) (h1 : sc.frame_start_bytes + sc.cmd_bytes ≤ j)
    (h2 : j < sc.frame_start_bytes + sc.cmd_bytes + sc.ts_bytes) :
    (frameBytes sc cmd cctrl mlen p).getD j 0 =
      (tsField sc).getD (j - (sc.frame_start_bytes + sc.cmd_bytes)) 0 := by
  unfold frameBytes
  rw [getD_append_lt _ _ _ (by
    simp [padTo_length, fieldBytes_length, tsField_length, hashField_length]
    omega)]
  rw [getD_append_lt _ _ _ (by
    simp [padTo_length, fieldBytes_length, tsField_length, hashField_length]
    omega)]
  rw [getD_append_lt _ _ _ (by
    simp [padTo_length, fieldBytes_length, tsField_length, hashField_length]
    omega)]
  rw [getD_append_lt _ _ _ (by
    simp [padTo_length, fieldBytes_length, tsField_length, hashField_length]
    omega)]
  rw [getD_append_ge _ _ _ (by
    simp [padTo_length, fieldBytes_length]
    omega)]
  simp only [List.length_append, padTo_length, fieldBytes_length]

theorem frameBytes_getD_len (sc : SC) (cmd cctrl mlen : Nat) (p : List Nat)
    (j : Nat) (h1 : sc.frame_start_bytes + sc.cmd_bytes + sc.ts_bytes ≤ j)
    (h2 : j < sc.frame_start_bytes + sc.cmd_bytes + sc.ts_bytes +
      sc.len_bytes) :
    (frameBytes sc cmd cctrl mlen p).getD j 0 =
      (fieldBytes mlen sc.len_bytes).getD
        (j - (sc.frame_start_bytes + sc.cmd_bytes + sc.ts_bytes)) 0 := by
  unfold frameBytes
  rw [getD_append_lt _ _ _ (by
    simp [padTo_length, fieldBytes_length, tsField_length, hashField_length]
    omega)]
  rw [getD_append_lt _ _ _ (by
    simp [padTo_length, fieldBytes_length, tsField_length, hashField_length]
    omega)]
  rw [getD_append_lt _ _ _ (by
    simp [padTo_length, fieldBytes_length, tsField_length, hashField_length]
    omega)]
  rw [getD_append_ge _ _ _ (by
    simp [padTo_length, fieldBytes_length, tsField_length]
    omega)]
  simp only [List.length_append, padTo_length, fieldBytes_length,
    tsField_length]

theorem frameBytes_getD_payload (sc : SC) (cmd cctrl mlen : Nat) (p : List Nat)
    (j : Nat)
    (h1 : sc.frame_start_bytes + sc.cmd_bytes + sc.ts_bytes + sc.len_bytes ≤ j)
    (h2 : j < sc.frame_start_bytes + sc.cmd_bytes + sc.ts_bytes +
      sc.len_bytes + mlen) :
    (frameBytes sc cmd cctrl mlen p).getD j 0 =
      p.getD (j - (sc.frame_start_bytes + sc.cmd_bytes + sc.ts_bytes +
        sc.len_bytes)) 0 := by
  unfold frameBytes
  rw [getD_append_lt _ _ _ (by
    simp [padTo_length, fieldBytes_length, tsField_length, hashField_length]
    omega)]
  rw [getD_append_lt _ _ _ (by
    simp [padTo_length, fieldBytes_length, tsField_length, hashField_length]
    omega)]
  rw [getD_append_ge _ _ _ (by
    simp [padTo_length, fieldBytes_length, tsField_length]
    omega)]
  rw [padTo_getD _ _ _ (by
    simp [padTo_length, fieldBytes_length, tsField_length]
    omega)]
  simp only [List.length_append, padTo_length, fieldBytes_length,
    tsField_length]

theorem frameBytes_getD_hash (sc : SC) (cmd cctrl mlen : Nat) (p : List Nat)
    (j : Nat)
    (h1 : sc.frame_start_bytes + sc.cmd_bytes + sc.ts_bytes + sc.len_bytes +
      mlen ≤ j)
    (h2 : j < sc.frame_start_bytes + sc.cmd_bytes + sc.ts_bytes +
      sc.len_bytes + mlen + sc.hash_bytes) :
    (frameBytes sc cmd cctrl mlen p).getD j 0 =
      (hashField sc cmd mlen p).getD
        (j - (sc.frame_start_bytes + sc.cmd_bytes + sc.ts_bytes +
          sc.len_bytes + mlen)) 0 := by
  unfold frameBytes
  rw [getD_append_lt _ _ _ (by
    simp [padTo_length, fieldBytes_length, tsField_length, hashField_length]
    omega)]
  rw [getD_append_ge _ _ _ (by
    simp [padTo_length, fieldBytes_length, tsField_length]
    omega)]
  simp only [List.length_append, padTo_length, fieldBytes_length,
    tsField_length]

theorem frameBytes_getD_ctrl (sc : SC) (cmd cctrl mlen : Nat) (p : List Nat)
    (j : Nat)
    (h1 : sc.frame_start_bytes + sc.cmd_bytes + sc.ts_bytes + sc.len_bytes +
      mlen + sc.hash_bytes ≤ j)
    (h2 : j < frameLen sc mlen) :
    (frameBytes sc cmd cctrl mlen p).getD j 0 =
      (fieldBytes cctrl sc.comm_ctrl_bytes).getD
        (j - (sc.frame_start_bytes + sc.cmd_bytes + sc.ts_bytes +
          sc.len_bytes + mlen + sc.hash_bytes)) 0 := by
  unfold frameLen at h2
  unfold frameBytes
  rw [getD_append_ge _ _ _ (by
    simp [padTo_length, fieldBytes_length, tsField_length, hashField_length]
    omega)]
  simp only [List.length_append, padTo_length, fieldBytes_length,
    tsField_length, hashField_length]

/-! The full encoder layout: the output of the write stack agrees with the
spec-side frame layout on every frame byte, provided the timestamp region
of stage 3 matches tsField (true when a timestamp callback is configured,
and for a zero-initialized output also when it is not). -/

theorem mmOut8_layout (sc : SC) (cmd cctrl mlen : Nat) (p : List Nat)
    (output : Nat → Nat)
    (hcw : sc.cmd_bytes = 1 ∨ sc.cmd_bytes = 2 ∨ sc.cmd_bytes = 4)
    (hlw : sc.len_bytes = 1 ∨ sc.len_bytes = 2 ∨ sc.len_bytes = 4)
    (hctw : sc.comm_ctrl_bytes = 0 ∨ sc.comm_ctrl_bytes = 1 ∨
      sc.comm_ctrl_bytes = 2 ∨ sc.comm_ctrl_bytes = 4)
    (htsr : ∀ j, j < sc.ts_bytes →
      mmOut3 sc cmd output (sc.frame_start_bytes + sc.cmd_bytes + j) =
        (tsField sc).getD j 0) :
    ∀ j, j < frameLen sc mlen →
      mmOut8 sc cmd cctrl mlen p output j =
        (frameBytes sc cmd cctrl mlen p).getD j 0 := by
  have hmid : ∀ i, i < sc.frame_start_bytes + sc.cmd_bytes + sc.ts_bytes +
      sc.len_bytes + mlen → sc.frame_start_bytes ≤ i →
      mmOut7 sc cmd cctrl mlen p output i =
        (hashInput sc cmd mlen p).getD (i - sc.frame_start_bytes) 0 := by
    intro i hi1 hi2
    rw [mmOut7_out sc cmd cctrl mlen p output i (Or.inl (by omega)),
      mmOut6_out sc cmd mlen p output i (Or.inl (by omega))]
    by_cases hA : i < sc.frame_start_bytes + sc.cmd_bytes
    · rw [mmOut5_out sc cmd mlen p output i (Or.inl (by omega)),
        mmOut4_out sc cmd mlen output i (Or.inl (by omega)),
        mmOut3_out sc cmd output i (Or.inl (by omega)),
        mmOut2_in sc cmd output i hcw hi2 hA]
      unfold hashInput
      rw [getD_append_lt _ _ _ (by
        simp [padTo_length, fieldBytes_length, tsField_length]
        omega)]
      rw [getD_append_lt _ _ _ (by
        simp [fieldBytes_length, tsField_length]
        omega)]
      rw [getD_append_lt _ _ _ (by
        simp [fieldBytes_length]
        omega)]
    · by_cases hB : i < sc.frame_start_bytes + sc.cmd_bytes + sc.ts_bytes
      · rw [mmOut5_out sc cmd mlen p output i (Or.inl (by omega)),
          mmOut4_out sc cmd mlen output i (Or.inl (by omega))]
        have hk := htsr (i - (sc.frame_start_bytes + sc.cmd_bytes)) (by omega)
        have he : sc.frame_start_bytes + sc.cmd_bytes +
            (i - (sc.frame_start_bytes + sc.cmd_bytes)) = i := by omega
        rw [he] at hk
        rw [hk]
        unfold hashInput
        rw [getD_append_lt _ _ _ (by
          simp [padTo_length, fieldBytes_length, tsField_length]
          omega)]
        rw [getD_append_lt _ _ _ (by
          simp [fieldBytes_length, tsField_length]
          omega)]
        rw [getD_append_ge _ _ _ (by
          simp [fieldBytes_length]
          omega)]
        rw [fieldBytes_length]
        congr 1
        omega
      · by_cases hC : i < sc.frame_start_bytes + sc.cmd_bytes + sc.ts_bytes +
            sc.len_bytes
        · rw [mmOut5_out sc cmd mlen p output i (Or.inl (by omega)),
            mmOut4_in sc cmd mlen output i hlw (by omega) hC]
          unfold hashInput
          rw [getD_append_lt _ _ _ (by
            simp [padTo_length, fieldBytes_length, tsField_length]
            omega)]
          rw [getD_append_ge _ _ _ (by
            simp [fieldBytes_length, tsField_length]
            omega)]
          simp only [List.length_append, fieldBytes_length, tsField_length]
          congr 1
          omega
        · rw [mmOut5_in sc cmd mlen p output i (by omega) (by omega)]
          unfold hashInput
          rw [getD_append_ge _ _ _ (by
            simp [fieldBytes_length, tsField_length]
            omega)]
          rw [padTo_getD _ _ _ (by
            simp [fieldBytes_length, tsField_length]
            omega)]
          simp only [List.length_append, fieldBytes_length, tsField_length]
          congr 1
          omega
  have hinput : readBytes (mmOut7 sc cmd cctrl mlen p output)
      sc.frame_start_bytes
      (sc.cmd_bytes + sc.ts_bytes + sc.len_bytes + mlen) =
      hashInput sc cmd mlen p := by
    apply list_eq_of_getD
    · rw [readBytes_length]
      unfold hashInput
      simp [padTo_length, fieldBytes_length, tsField_length]
      omega
    · intro k hk
      rw [readBytes_length] at hk
      rw [readBytes_getD _ _ _ _ hk]
      rw [hmid (sc.frame_start_bytes + k) (by omega) (by omega)]
      congr 1
      omega
  intro j hj
  unfold frameLen at hj
  by_cases r1 : j < sc.frame_start_bytes
  · rw [mmOut8_out sc cmd cctrl mlen p output j (Or.inl (by omega)),
      mmOut7_out sc cmd cctrl mlen p output j (Or.inl (by omega)),
      mmOut6_out sc cmd mlen p output j (Or.inl (by omega)),
      mmOut5_out sc cmd mlen p output j (Or.inl (by omega)),
      mmOut4_out sc cmd mlen output j (Or.inl (by omega)),
      mmOut3_out sc cmd output j (Or.inl (by omega)),
      mmOut2_out sc cmd output j (Or.inl (by omega)),
      mmOut1_in sc output j r1,
      frameBytes_getD_sync sc cmd cctrl mlen p j r1]
  · by_cases r2 : j < sc.frame_start_bytes + sc.cmd_bytes
    · rw [mmOut8_out sc cmd cctrl mlen p output j (Or.inl (by omega)),
        mmOut7_out sc cmd cctrl mlen p output j (Or.inl (by omega)),
        mmOut6_out sc cmd mlen p output j (Or.inl (by omega)),
        mmOut5_out sc cmd mlen p output j (Or.inl (by omega)),
        mmOut4_out sc cmd mlen output j (Or.inl (by omega)),
        mmOut3_out sc cmd output j (Or.inl (by omega)),
        mmOut2_in sc cmd output j hcw (by omega) r2,
        frameBytes_getD_cmd sc cmd cctrl mlen p j (by omega) r2]
    · by_cases r3 : j < sc.frame_start_bytes + sc.cmd_bytes + sc.ts_bytes
      · rw [mmOut8_out sc cmd cctrl mlen p output j (Or.inl (by omega)),
          mmOut7_out sc cmd cctrl mlen p output j (Or.inl (by omega)),
          mmOut6_out sc cmd mlen p output j (Or.inl (by omega)),
          mmOut5_out sc cmd mlen p output j (Or.inl (by omega)),
          mmOut4_out sc cmd mlen output j (Or.inl (by omega))]
        have hk := htsr (j - (sc.frame_start_bytes + sc.cmd_bytes)) (by omega)
        have he : sc.frame_start_bytes + sc.cmd_bytes +
            (j - (sc.frame_start_bytes + sc.cmd_bytes)) = j := by omega
        rw [he] at hk
        rw [hk, frameBytes_getD_ts sc cmd cctrl mlen p j (by omega) r3]
      · by_cases r4 : j < sc.frame_start_bytes + sc.cmd_bytes + sc.ts_bytes +
            sc.len_bytes
        · rw [mmOut8_out sc cmd cctrl mlen p output j (Or.inl (by omega)),
            mmOut7_out sc cmd cctrl mlen p output j (Or.inl (by omega)),
            mmOut6_out sc cmd mlen p output j (Or.inl (by omega)),
            mmOut5_out sc cmd mlen p output j (Or.inl (by omega)),
            mmOut4_in sc cmd mlen output j hlw (by omega) r4,
            frameBytes_getD_len sc cmd cctrl mlen p j (by omega) r4]
        · by_cases r5 : j < sc.frame_start_bytes + sc.cmd_bytes +
              sc.ts_bytes + sc.len_bytes + mlen
          · rw [mmOut8_out sc cmd cctrl mlen p output j (Or.inl (by omega)),
              mmOut7_out sc cmd cctrl mlen p output j (Or.inl (by omega)),
              mmOut6_out sc cmd mlen p output j (Or.inl (by omega)),
              mmOut5_in sc cmd mlen p output j (by omega) r5,
              frameBytes_getD_payload sc cmd cctrl mlen p j (by omega) r5]
          · by_cases r6 : j < sc.frame_start_bytes + sc.cmd_bytes +
                sc.ts_bytes + sc.len_bytes + mlen + sc.hash_bytes
            · rw [frameBytes_getD_hash sc cmd cctrl mlen p j (by omega) r6]
              cases hh : sc.hash with
              | some hf =>
                rw [mmOut8_some sc cmd cctrl mlen p output j hf hh
                    (by omega) r6, hinput]
                unfold hashField
                rw [hh]
              | none =>
                rw [mmOut8_none sc cmd cctrl mlen p output j hh,
                  mmOut7_out sc cmd cctrl mlen p output j (Or.inl (by omega)),
                  mmOut6_in sc cmd mlen p output j (by omega) r6]
                unfold hashField
                rw [hh]
                rw [replicate_getD _ _ _ (by omega)]
            · have hctw3 : sc.comm_ctrl_bytes = 1 ∨ sc.comm_ctrl_bytes = 2 ∨
                  sc.comm_ctrl_bytes = 4 := by
                rcases hctw with h | h | h | h
                · omega
                · exact Or.inl h
                · exact Or.inr (Or.inl h)
                · exact Or.inr (Or.inr h)
              rw [mmOut8_out sc cmd cctrl mlen p output j (Or.inr (by omega)),
                mmOut7_in sc cmd cctrl mlen p output j hctw3 (by omega)
                  (by omega),
                frameBytes_getD_ctrl sc cmd cctrl mlen p j (by omega)
                  (by unfold frameLen; omega)]

/-! Consumers of the layout lemma. -/

theorem mmOut3_ts_region_zero (sc : SC) (cmd : Nat) :
    ∀ j, j < sc.ts_bytes →
      mmOut3 sc cmd (fun _ => 0)
        (sc.frame_start_bytes + sc.cmd_bytes + j) = (tsField sc).getD j 0 := by
  intro j hj
  cases hts : sc.ts with
  | some t =>
    rw [mmOut3_some sc cmd (fun _ => 0)
      (sc.frame_start_bytes + sc.cmd_bytes + j) t hts (by omega) (by omega)]
    unfold tsField
    rw [hts]
    congr 1
    omega
  | none =>
    rw [mmOut3_none sc cmd (fun _ => 0)
        (sc.frame_start_bytes + sc.cmd_bytes + j) hts,
      mmOut2_out sc cmd (fun _ => 0)
        (sc.frame_start_bytes + sc.cmd_bytes + j) (Or.inr (by omega)),
      mmOut1_out sc (fun _ => 0)
        (sc.frame_start_bytes + sc.cmd_bytes + j) (by omega)]
    unfold tsField
    rw [hts, replicate_getD _ _ _ hj]

theorem mmOut3_ts_region_conf (sc : SC) (cmd : Nat) (output : Nat → Nat)
    (hts : sc.ts_bytes = 0 ∨ sc.ts ≠ none) :
    ∀ j, j < sc.ts_bytes →
      mmOut3 sc cmd output
        (sc.frame_start_bytes + sc.cmd_bytes + j) = (tsField sc).getD j 0 := by
  intro j hj
  cases h : sc.ts with
  | some t =>
    rw [mmOut3_some sc cmd output
      (sc.frame_start_bytes + sc.cmd_bytes + j) t h (by omega) (by omega)]
    unfold tsField
    rw [h]
    congr 1
    omega
  | none =>
    rcases hts with hts | hts
    · omega
    · exact absurd h hts

theorem sc_encode_eq_frameBytes (sc : SC) (cmd cctrl mlen olen : Nat)
    (p : List Nat)
    (hcw : sc.cmd_bytes = 1 ∨ sc.cmd_bytes = 2 ∨ sc.cmd_bytes = 4)
    (hlw : sc.len_bytes = 1 ∨ sc.len_bytes = 2 ∨ sc.len_bytes = 4)
    (hctw : sc.comm_ctrl_bytes = 0 ∨ sc.comm_ctrl_bytes = 1 ∨
      sc.comm_ctrl_bytes = 2 ∨ sc.comm_ctrl_bytes = 4)
    (hfit : frameLen sc mlen ≤ olen) (hsmall : frameLen sc mlen < U32) :
    sc_encode sc cmd cctrl (some p) mlen olen =
      frameBytes sc cmd cctrl mlen p := by
  unfold sc_encode
  rw [sc_make_message_eq sc cmd cctrl mlen olen p (fun _ => 0) hfit hsmall]
  apply list_eq_of_getD
  · simp [frameBytes_length]
  · intro j hj
    simp only [List.length_map, List.length_range] at hj
    rw [rangeMap_getD _ _ _ hj]
    exact mmOut8_layout sc cmd cctrl mlen p (fun _ => 0) hcw hlw hctw
      (mmOut3_ts_region_zero sc cmd) j hj

theorem read_field_of_region (buf : Nat → Nat) (off w old v : Nat)
    (hw : w = 1 ∨ w = 2 ∨ w = 4) (hv : v < 256 ^ w)
    (h : ∀ j, j < w → buf (off + j) = (fieldBytes v w).getD j 0) :
    read_field buf off w old = v := by
  apply read_field_value buf off w old v hw hv
  intro j hj
  rw [h j hj, fieldBytes_getD _ _ _ hj]

/-! Generic single-call lemmas: sc_get_message split into the reset phase and
the checkpoint phase, and each checkpoint branch characterized on an
arbitrary state.  The threshold conditions are stated exactly as the code
computes them (32-bit sums). -/

theorem sc_get_message_skip (t : SC) (sm : List SercommMsg) (b : Nat)
    (hres : t.reset_bytes = SERCOMM_OMIT_RESET) :
    sc_get_message t sm b =
      sc_checkpoints { t with
        buffer := writeBytes t.buffer t.buffer_len [b],
        buffer_len := (t.buffer_len + 1) % U32 } sm := by
  unfold sc_get_message
  dsimp only []
  rw [if_neg (by simp [hres])]

theorem sc_get_message_enabled_other (t : SC) (sm : List SercommMsg) (b : Nat)
    (hres : t.reset_bytes ≠ SERCOMM_OMIT_RESET) (hb : b ≠ t.reset_byte)
    (hnz : t.reset_bytes ≠ 0) :
    sc_get_message t sm b =
      sc_checkpoints { t with
        buffer := writeBytes t.buffer t.buffer_len [b],
        buffer_len := (t.buffer_len + 1) % U32,
        buffer_reset_bytes := 0 } sm := by
  unfold sc_get_message
  dsimp only []
  rw [if_pos (by simpa using hres), if_neg hb, if_neg hnz]

theorem sc_get_message_count (t : SC) (sm : List SercommMsg)
    (hres : t.reset_bytes ≠ SERCOMM_OMIT_RESET)
    (hcnt : t.reset_bytes ≠ (t.buffer_reset_bytes + 1) % 256) :
    sc_get_message t sm t.reset_byte =
      sc_checkpoints { t with
        buffer := writeBytes t.buffer t.buffer_len [t.reset_byte],
        buffer_len := (t.buffer_len + 1) % U32,
        buffer_reset_bytes := (t.buffer_reset_bytes + 1) % 256 } sm := by
  unfold sc_get_message
  dsimp only []
  rw [if_pos (by simpa using hres), if_pos rfl, if_neg hcnt]

theorem sc_get_message_trigger (t : SC) (sm : List SercommMsg)
    (hres : t.reset_bytes ≠ SERCOMM_OMIT_RESET)
    (hcnt : t.reset_bytes = (t.buffer_reset_bytes + 1) % 256) :
    sc_get_message t sm t.reset_byte =
      ({ t with
        buffer := writeBytes t.buffer t.buffer_len [t.reset_byte],
        buffer_len := 0,
        buffer_reset_bytes := (t.buffer_reset_bytes + 1) % 256 },
       if t.reset then [Event.reset] else []) := by
  unfold sc_get_message
  dsimp only []
  rw [if_pos (by simpa using hres), if_pos rfl, if_pos hcnt]

theorem sc_checkpoints_none (t : SC) (sm : List SercommMsg)
    (h1 : t.buffer_len ≠ t.frame_start_bytes)
    (h2 : t.buffer_len ≠ (t.frame_start_bytes + t.cmd_bytes + t.ts_bytes +
      t.len_bytes) % U32)
    (h3 : t.buffer_len ≠ (t.frame_start_bytes + t.cmd_bytes + t.ts_bytes +
      t.len_bytes + t.message_len + t.hash_bytes + t.comm_ctrl_bytes) % U32) :
    sc_checkpoints t sm = (t, []) := by
  unfold sc_checkpoints
  dsimp only []
  rw [if_neg h1, if_neg h2, if_neg h3]

theorem sc_checkpoints_sync_match (t : SC) (sm : List SercommMsg)
    (h1 : t.buffer_len = t.frame_start_bytes)
    (hm : readBytes t.buffer 0 t.frame_start_bytes =
      padTo t.frame_start t.frame_start_bytes) :
    sc_checkpoints t sm = (t, []) := by
  unfold sc_checkpoints
  dsimp only []
  rw [if_pos h1, if_neg (by simpa using hm)]

theorem sc_checkpoints_sync_mismatch (t : SC) (sm : List SercommMsg)
    (h1 : t.buffer_len = t.frame_start_bytes)
    (hm : readBytes t.buffer 0 t.frame_start_bytes ≠
      padTo t.frame_start t.frame_start_bytes) :
    sc_checkpoints t sm =
      (shift_message t 1 (t.frame_start_bytes - 1), []) := by
  unfold sc_checkpoints
  dsimp only []
  rw [if_pos h1, if_pos (by simpa using hm)]

theorem sc_checkpoints_header_pass (t : SC) (sm : List SercommMsg)
    (h1 : t.buffer_len ≠ t.frame_start_bytes)
    (h2 : t.buffer_len = (t.frame_start_bytes + t.cmd_bytes + t.ts_bytes +
      t.len_bytes) % U32)
    (hp1 : t.message_valid_len ≠ SERCOMM_IGNORE_MSG_VALID_LENGTH →
      read_field t.buffer ((t.frame_start_bytes + t.cmd_bytes + t.ts_bytes +
        t.len_bytes) % U32 - t.len_bytes) t.len_bytes t.message_len =
        t.message_valid_len)
    (hp2 : t.message_valid_len = SERCOMM_IGNORE_MSG_VALID_LENGTH →
      read_field t.buffer ((t.frame_start_bytes + t.cmd_bytes + t.ts_bytes +
        t.len_bytes) % U32 - t.len_bytes) t.len_bytes t.message_len ≤
        t.message_max_len) :
    sc_checkpoints t sm =
      ({ t with message_len := (read_field t.buffer
          ((t.frame_start_bytes + t.cmd_bytes + t.ts_bytes + t.len_bytes) %
            U32 - t.len_bytes) t.len_bytes t.message_len) }, []) := by
  unfold sc_checkpoints
  dsimp only []
  rw [if_neg h1, if_pos h2]
  by_cases hv : t.message_valid_len = SERCOMM_IGNORE_MSG_VALID_LENGTH
  · rw [if_neg (by simpa using hv), if_neg (by simpa using Nat.not_lt.mpr (hp2 hv))]
  · rw [if_pos (by simpa using hv), if_neg (by simpa using hp1 hv)]

theorem sc_checkpoints_header_fail (t : SC) (sm : List SercommMsg)
    (h1 : t.buffer_len ≠ t.frame_start_bytes)
    (h2 : t.buffer_len = (t.frame_start_bytes + t.cmd_bytes + t.ts_bytes +
      t.len_bytes) % U32)
    (hp : (t.message_valid_len ≠ SERCOMM_IGNORE_MSG_VALID_LENGTH ∧
        read_field t.buffer ((t.frame_start_bytes + t.cmd_bytes + t.ts_bytes +
          t.len_bytes) % U32 - t.len_bytes) t.len_bytes t.message_len ≠
          t.message_valid_len) ∨
      (t.message_valid_len = SERCOMM_IGNORE_MSG_VALID_LENGTH ∧
        read_field t.buffer ((t.frame_start_bytes + t.cmd_bytes + t.ts_bytes +
          t.len_bytes) % U32 - t.len_bytes) t.len_bytes t.message_len >
          t.message_max_len)) :
    sc_checkpoints t sm =
      ({ t with
        message_len := (read_field t.buffer
          ((t.frame_start_bytes + t.cmd_bytes + t.ts_bytes + t.len_bytes) %
            U32 - t.len_bytes) t.len_bytes t.message_len),
        buffer_len := 0 }, []) := by
  unfold sc_checkpoints
  dsimp only []
  rw [if_neg h1, if_pos h2]
  rcases hp with ⟨hv, hne⟩ | ⟨hv, hgt⟩
  · rw [if_pos (by simpa using hv), if_pos (by simpa using hne)]
  · rw [if_neg (by simpa using hv), if_pos (by simpa using hgt)]

theorem sc_checkpoints_complete_nohash (t : SC) (sm : List SercommMsg)
    (hh : t.hash = none)
    (h1 : t.buffer_len ≠ t.frame_start_bytes)
    (h2 : t.buffer_len ≠ (t.frame_start_bytes + t.cmd_bytes + t.ts_bytes +
      t.len_bytes) % U32)
    (h3 : t.buffer_len = (t.frame_start_bytes + t.cmd_bytes + t.ts_bytes +
      t.len_bytes + t.message_len + t.hash_bytes + t.comm_ctrl_bytes) % U32) :
    sc_checkpoints t sm = (t, []) := by
  unfold sc_checkpoints
  dsimp only []
  rw [if_neg h1, if_neg h2, if_pos h3, hh]

theorem sc_checkpoints_complete_mismatch (t : SC) (sm : List SercommMsg)
    (hf : List Nat → List Nat) (hh : t.hash = some hf)
    (h1 : t.buffer_len ≠ t.frame_start_bytes)
    (h2 : t.buffer_len ≠ (t.frame_start_bytes + t.cmd_bytes + t.ts_bytes +
      t.len_bytes) % U32)
    (h3 : t.buffer_len = (t.frame_start_bytes + t.cmd_bytes + t.ts_bytes +
      t.len_bytes + t.message_len + t.hash_bytes + t.comm_ctrl_bytes) % U32)
    (hm : readBytes (writeBytes t.buffer t.buffer_len
        (padTo (hf (readBytes t.buffer t.frame_start_bytes
          ((t.cmd_bytes + t.ts_bytes + t.len_bytes + t.message_len) % U32)))
          t.hash_bytes)) t.buffer_len t.hash_bytes ≠
      readBytes (writeBytes t.buffer t.buffer_len
        (padTo (hf (readBytes t.buffer t.frame_start_bytes
          ((t.cmd_bytes + t.ts_bytes + t.len_bytes + t.message_len) % U32)))
          t.hash_bytes))
        (((t.cmd_bytes + t.ts_bytes + t.len_bytes + t.message_len) % U32 +
          t.frame_start_bytes) % U32) t.hash_bytes) :
    sc_checkpoints t sm =
      ({ t with
        buffer := writeBytes t.buffer t.buffer_len
          (padTo (hf (readBytes t.buffer t.frame_start_bytes
            ((t.cmd_bytes + t.ts_bytes + t.len_bytes + t.message_len) % U32)))
            t.hash_bytes),
        buffer_len := 0 }, []) := by
  unfold sc_checkpoints
  dsimp only []
  rw [if_neg h1, if_neg h2, if_pos h3, hh]
  dsimp only []
  rw [if_pos (by simpa using hm)]

theorem sc_checkpoints_complete_match (t : SC) (sm : List SercommMsg)
    (hf : List Nat → List Nat) (hh : t.hash = some hf)
    (h1 : t.buffer_len ≠ t.frame_start_bytes)
    (h2 : t.buffer_len ≠ (t.frame_start_bytes + t.cmd_bytes + t.ts_bytes +
      t.len_bytes) % U32)
    (h3 : t.buffer_len = (t.frame_start_bytes + t.cmd_bytes + t.ts_bytes +
      t.len_bytes + t.message_len + t.hash_bytes + t.comm_ctrl_bytes) % U32)
    (hm : readBytes (writeBytes t.buffer t.buffer_len
        (padTo (hf (readBytes t.buffer t.frame_start_bytes
          ((t.cmd_bytes + t.ts_bytes + t.len_bytes + t.message_len) % U32)))
          t.hash_bytes)) t.buffer_len t.hash_bytes =
      readBytes (writeBytes t.buffer t.buffer_len
        (padTo (hf (readBytes t.buffer t.frame_start_bytes
          ((t.cmd_bytes + t.ts_bytes + t.len_bytes + t.message_len) % U32)))
          t.hash_bytes))
        (((t.cmd_bytes + t.ts_bytes + t.len_bytes + t.message_len) % U32 +
          t.frame_start_bytes) % U32) t.hash_bytes) :
    sc_checkpoints t sm =
      ({ t with
        buffer := writeBytes t.buffer t.buffer_len
          (padTo (hf (readBytes t.buffer t.frame_start_bytes
            ((t.cmd_bytes + t.ts_bytes + t.len_bytes + t.message_len) % U32)))
            t.hash_bytes),
        buffer_len := 0 },
       match dispatchScan sm (read_field (writeBytes t.buffer t.buffer_len
          (padTo (hf (readBytes t.buffer t.frame_start_bytes
            ((t.cmd_bytes + t.ts_bytes + t.len_bytes + t.message_len) % U32)))
            t.hash_bytes)) t.frame_start_bytes t.cmd_bytes 0) with
       | some i =>
          [Event.handler i
            (read_field (writeBytes t.buffer t.buffer_len
              (padTo (hf (readBytes t.buffer t.frame_start_bytes
                ((t.cmd_bytes + t.ts_bytes + t.len_bytes + t.message_len) %
                  U32))) t.hash_bytes)) t.frame_start_bytes t.cmd_bytes 0)
            (t.frame_start_bytes + t.cmd_bytes) t.message_len
            ((t.frame_start_bytes + t.cmd_bytes + t.ts_bytes + t.len_bytes) %
              U32)
            (readBytes (writeBytes t.buffer t.buffer_len
              (padTo (hf (readBytes t.buffer t.frame_start_bytes
                ((t.cmd_bytes + t.ts_bytes + t.len_bytes + t.message_len) %
                  U32))) t.hash_bytes))
              ((t.frame_start_bytes + t.cmd_bytes + t.ts_bytes + t.len_bytes) %
                U32) t.message_len)
            (if t.comm_ctrl_bytes > 0 then
              read_field (writeBytes t.buffer t.buffer_len
                (padTo (hf (readBytes t.buffer t.frame_start_bytes
                  ((t.cmd_bytes + t.ts_bytes + t.len_bytes + t.message_len) %
                    U32))) t.hash_bytes))
                (sub32 t.buffer_len t.comm_ctrl_bytes) t.comm_ctrl_bytes 0
             else 0)
            t.priv]
       | none => []) := by
  unfold sc_checkpoints
  dsimp only []
  rw [if_neg h1, if_neg h2, if_pos h3, hh]
  dsimp only []
  rw [if_neg (by simpa using hm)]
  split <;> rfl

/-! Round trip: feeding an encoded frame from a flushed decoder state
dispatches the registered handler exactly once. -/


theorem take_succ_getD (l : List Nat) (k : Nat) (h : k < l.length) :
    l.take (k + 1) = l.take k ++ [l.getD k 0] := by
  rw [List.take_succ, List.getElem?_eq_getElem h]
  rw [List.getD_eq_getElem?_getD, List.getElem?_eq_getElem h]
  rfl

theorem sub32_eq_sub (a b : Nat) (h1 : b ≤ a) (h2 : a < U32) :
    sub32 a b = a - b := by
  unfold sub32
  simp only [U32] at *
  omega

theorem accumState_zero (sc : SC) (frame : List Nat) (mlen : Nat)
    (hb0 : sc.buffer_len = 0)
    (hcw : sc.cmd_bytes = 1 ∨ sc.cmd_bytes = 2 ∨ sc.cmd_bytes = 4) :
    accumState sc frame mlen 0 = sc := by
  have h1 : 1 ≤ sc.cmd_bytes := by rcases hcw with h | h | h <;> omega
  ext
  case buffer =>
    simp only [accumState]
    rw [if_neg (by omega)]
  case buffer_len => simp [accumState, hb0]
  case message_len =>
    simp only [accumState]
    rw [if_neg (by omega)]
  case buffer_reset_bytes => simp [accumState]
  all_goals rfl

theorem entry_eq_accum (sc : SC) (frame : List Nat) (mlen k : Nat)
    (hne : sc.frame_start_bytes + sc.cmd_bytes + sc.ts_bytes + sc.len_bytes ≠
      k + 1) :
    entryState sc frame mlen k = accumState sc frame mlen (k + 1) := by
  ext
  case message_len =>
    simp only [entryState, accumState]
    by_cases hle : sc.frame_start_bytes + sc.cmd_bytes + sc.ts_bytes +
        sc.len_bytes ≤ k
    · rw [if_pos hle, if_pos (by omega)]
    · rw [if_neg hle, if_neg (by omega)]
  case buffer_reset_bytes =>
    simp only [entryState, accumState]
    by_cases hres : sc.reset_bytes = SERCOMM_OMIT_RESET
    · rw [if_pos hres, if_pos (Or.inr hres)]
    · rw [if_neg hres, if_neg (by
        rintro (h | h)
        · omega
        · exact hres h)]
  all_goals rfl

theorem frameBytes_hash_region (sc : SC) (cmd cctrl mlen : Nat) (p : List Nat) :
    ∀ k, k < sc.cmd_bytes + sc.ts_bytes + sc.len_bytes + mlen →
      (frameBytes sc cmd cctrl mlen p).getD (sc.frame_start_bytes + k) 0 =
        (hashInput sc cmd mlen p).getD k 0 := by
  intro k hk
  by_cases hA : k < sc.cmd_bytes
  · rw [frameBytes_getD_cmd sc cmd cctrl mlen p _ (by omega) (by omega)]
    unfold hashInput
    rw [getD_append_lt _ _ _ (by
      simp [padTo_length, fieldBytes_length, tsField_length]
      omega)]
    rw [getD_append_lt _ _ _ (by
      simp [fieldBytes_length, tsField_length]
      omega)]
    rw [getD_append_lt _ _ _ (by
      simp [fieldBytes_length]
      omega)]
    congr 1
    omega
  · by_cases hB : k < sc.cmd_bytes + sc.ts_bytes
    · rw [frameBytes_getD_ts sc cmd cctrl mlen p _ (by omega) (by omega)]
      unfold hashInput
      rw [getD_append_lt _ _ _ (by
        simp [padTo_length, fieldBytes_length, tsField_length]
        omega)]
      rw [getD_append_lt _ _ _ (by
        simp [fieldBytes_length, tsField_length]
        omega)]
      rw [getD_append_ge _ _ _ (by
        simp [fieldBytes_length]
        omega)]
      rw [fieldBytes_length]
      congr 1
      omega
    · by_cases hC : k < sc.cmd_bytes + sc.ts_bytes + sc.len_bytes
      · rw [frameBytes_getD_len sc cmd cctrl mlen p _ (by omega) (by omega)]
        unfold hashInput
        rw [getD_append_lt _ _ _ (by
          simp [padTo_length, fieldBytes_length, tsField_length]
          omega)]
        rw [getD_append_ge _ _ _ (by
          simp [fieldBytes_length, tsField_length]
          omega)]
        simp only [List.length_append, fieldBytes_length, tsField_length]
        congr 1
        omega
      · rw [frameBytes_getD_payload sc cmd cctrl mlen p _ (by omega)
          (by omega)]
        unfold hashInput
        rw [getD_append_ge _ _ _ (by
          simp [fieldBytes_length, tsField_length]
          omega)]
        rw [padTo_getD _ _ _ (by
          simp [fieldBytes_length, tsField_length]
          omega)]
        simp only [List.length_append, fieldBytes_length, tsField_length]
        congr 1
        omega

theorem append_entry_dis (sc : SC) (frame : List Nat) (mlen k b : Nat)
    (hb : b = frame.getD k 0) (hkU : k + 1 < U32)
    (hres : sc.reset_bytes = SERCOMM_OMIT_RESET) :
    { accumState sc frame mlen k with
      buffer := writeBytes (accumState sc frame mlen k).buffer
        (accumState sc frame mlen k).buffer_len [b],
      buffer_len := ((accumState sc frame mlen k).buffer_len + 1) % U32 } =
      entryState sc frame mlen k := by
  subst hb
  ext
  case buffer =>
    next x =>
    simp only [accumState, entryState, writeBytes, List.length_cons,
      List.length_nil]
    by_cases hx : x = k
    · subst hx
      simp
    · by_cases hx2 : x < k
      · rw [if_neg (by omega), if_pos hx2, if_pos (by omega)]
      · rw [if_neg (by omega), if_neg (by omega), if_neg (by omega)]
  case buffer_len =>
    simp only [accumState, entryState]
    simp only [U32] at hkU ⊢
    omega
  case buffer_reset_bytes =>
    simp only [accumState, entryState]
    rw [if_pos (Or.inr hres), if_pos hres]
  all_goals rfl

theorem append_entry_en (sc : SC) (frame : List Nat) (mlen k b : Nat)
    (hb : b = frame.getD k 0) (hkU : k + 1 < U32)
    (hres : sc.reset_bytes ≠ SERCOMM_OMIT_RESET) :
    { accumState sc frame mlen k with
      buffer := writeBytes (accumState sc frame mlen k).buffer
        (accumState sc frame mlen k).buffer_len [b],
      buffer_len := ((accumState sc frame mlen k).buffer_len + 1) % U32,
      buffer_reset_bytes := 0 } =
      entryState sc frame mlen k := by
  subst hb
  ext
  case buffer =>
    next x =>
    simp only [accumState, entryState, writeBytes, List.length_cons,
      List.length_nil]
    by_cases hx : x = k
    · subst hx
      simp
    · by_cases hx2 : x < k
      · rw [if_neg (by omega), if_pos hx2, if_pos (by omega)]
      · rw [if_neg (by omega), if_neg (by omega), if_neg (by omega)]
  case buffer_len =>
    simp only [accumState, entryState]
    simp only [U32] at hkU ⊢
    omega
  case buffer_reset_bytes =>
    simp only [accumState, entryState]
    rw [if_neg hres]
  all_goals rfl

theorem entry_set_ml (sc : SC) (frame : List Nat) (mlen k : Nat)
    (hge : sc.frame_start_bytes + sc.cmd_bytes + sc.ts_bytes + sc.len_bytes ≤
      k + 1) :
    ({ entryState sc frame mlen k with message_len := mlen } : SC) =
      accumState sc frame mlen (k + 1) := by
  ext
  case message_len =>
    simp only [entryState, accumState]
    rw [if_pos hge]
  case buffer_reset_bytes =>
    simp only [entryState, accumState]
    by_cases hres : sc.reset_bytes = SERCOMM_OMIT_RESET
    · rw [if_pos hres, if_pos (Or.inr hres)]
    · rw [if_neg hres, if_neg (by
        rintro (h | h)
        · omega
        · exact hres h)]
  all_goals rfl

theorem roundtrip_entry (sc : SC) (sm : List SercommMsg) (cmd cctrl mlen : Nat)
    (p : List Nat) (H : RTH sc cmd cctrl mlen p) (k : Nat)
    (hkU : k + 1 < U32) (hkF : k < frameLen sc mlen) :
    sc_get_message (accumState sc (frameBytes sc cmd cctrl mlen p) mlen k) sm
      ((frameBytes sc cmd cctrl mlen p).getD k 0) =
      sc_checkpoints (entryState sc (frameBytes sc cmd cctrl mlen p) mlen k)
        sm := by
  by_cases hOM : sc.reset_bytes = SERCOMM_OMIT_RESET
  · rw [sc_get_message_skip _ sm _ (by simpa [accumState] using hOM)]
    rw [append_entry_dis sc (frameBytes sc cmd cctrl mlen p) mlen k _ rfl
      hkU hOM]
  · rcases H.hres with hres | ⟨hnz, hfb⟩
    · exact absurd hres hOM
    · have hmem : (frameBytes sc cmd cctrl mlen p).getD k 0 ∈
          frameBytes sc cmd cctrl mlen p := by
        have hklen : k < (frameBytes sc cmd cctrl mlen p).length := by
          rw [frameBytes_length]
          omega
        rw [List.getD_eq_getElem?_getD, List.getElem?_eq_getElem hklen]
        exact List.getElem_mem hklen
      rw [sc_get_message_enabled_other _ sm _
        (by simpa [accumState] using hOM)
        (by simpa [accumState] using hfb _ hmem)
        (by simpa [accumState] using hnz)]
      rw [append_entry_en sc (frameBytes sc cmd cctrl mlen p) mlen k _ rfl
        hkU hOM]

theorem roundtrip_step (sc : SC) (sm : List SercommMsg) (cmd cctrl mlen : Nat)
    (p : List Nat) (H : RTH sc cmd cctrl mlen p)
    (hstale : frameLen sc sc.message_len < U32)
    (k : Nat) (hk : k + 1 < frameLen sc mlen) :
    sc_get_message (accumState sc (frameBytes sc cmd cctrl mlen p) mlen k) sm
      ((frameBytes sc cmd cctrl mlen p).getD k 0) =
      (accumState sc (frameBytes sc cmd cctrl mlen p) mlen (k + 1), []) := by
  have hcw := H.hcw
  have hlw := H.hlw
  have hc1 : 1 ≤ sc.cmd_bytes := by rcases hcw with h | h | h <;> omega
  have hl1 : 1 ≤ sc.len_bytes := by rcases hlw with h | h | h <;> omega
  have hsm : sc.frame_start_bytes + sc.cmd_bytes + sc.ts_bytes + sc.len_bytes +
      mlen + sc.hash_bytes + sc.comm_ctrl_bytes < 4294967296 := by
    have := H.hsmall
    unfold frameLen at this
    simpa [U32] using this
  have hst : sc.frame_start_bytes + sc.cmd_bytes + sc.ts_bytes + sc.len_bytes +
      sc.message_len + sc.hash_bytes + sc.comm_ctrl_bytes < 4294967296 := by
    unfold frameLen at hstale
    simpa [U32] using hstale
  have hkF : k + 1 < sc.frame_start_bytes + sc.cmd_bytes + sc.ts_bytes +
      sc.len_bytes + mlen + sc.hash_bytes + sc.comm_ctrl_bytes := by
    unfold frameLen at hk
    omega
  have hkU : k + 1 < U32 := by simp only [U32]; omega
  have hflen := frameBytes_length sc cmd cctrl mlen p
  rw [roundtrip_entry sc sm cmd cctrl mlen p H k hkU (by omega)]
  by_cases hfs : k + 1 = sc.frame_start_bytes
  · have hsync : readBytes
        (entryState sc (frameBytes sc cmd cctrl mlen p) mlen k).buffer 0
        (entryState sc (frameBytes sc cmd cctrl mlen p) mlen
          k).frame_start_bytes =
        padTo (entryState sc (frameBytes sc cmd cctrl mlen p) mlen
            k).frame_start
          (entryState sc (frameBytes sc cmd cctrl mlen p) mlen
            k).frame_start_bytes := by
      apply list_eq_of_getD
      · simp [readBytes_length, padTo_length]
      · intro j hj
        rw [readBytes_length] at hj
        rw [readBytes_getD _ _ _ _ hj]
        simp only [entryState] at hj ⊢
        rw [Nat.zero_add, if_pos (by omega),
          frameBytes_getD_sync sc cmd cctrl mlen p j hj,
          padTo_getD _ _ _ hj]
    rw [sc_checkpoints_sync_match _ sm (by simp [entryState, hfs]) hsync]
    rw [entry_eq_accum sc (frameBytes sc cmd cctrl mlen p) mlen k (by omega)]
  · by_cases hs1 : k + 1 = sc.frame_start_bytes + sc.cmd_bytes + sc.ts_bytes +
        sc.len_bytes
    · have hml_read : read_field
          (entryState sc (frameBytes sc cmd cctrl mlen p) mlen k).buffer
          (((entryState sc (frameBytes sc cmd cctrl mlen p) mlen
              k).frame_start_bytes +
            (entryState sc (frameBytes sc cmd cctrl mlen p) mlen k).cmd_bytes +
            (entryState sc (frameBytes sc cmd cctrl mlen p) mlen k).ts_bytes +
            (entryState sc (frameBytes sc cmd cctrl mlen p) mlen k).len_bytes) %
            U32 -
            (entryState sc (frameBytes sc cmd cctrl mlen p) mlen k).len_bytes)
          (entryState sc (frameBytes sc cmd cctrl mlen p) mlen k).len_bytes
          (entryState sc (frameBytes sc cmd cctrl mlen p) mlen k).message_len =
          mlen := by
        simp only [entryState]
        have hmod : (sc.frame_start_bytes + sc.cmd_bytes + sc.ts_bytes +
            sc.len_bytes) % U32 =
            sc.frame_start_bytes + sc.cmd_bytes + sc.ts_bytes +
              sc.len_bytes := by
          simp only [U32]
          omega
        rw [hmod]
        apply read_field_of_region _ _ _ _ _ hlw H.hml
        intro j hj
        rw [if_pos (by omega)]
        have := frameBytes_getD_len sc cmd cctrl mlen p
          (sc.frame_start_bytes + sc.cmd_bytes + sc.ts_bytes + sc.len_bytes -
            sc.len_bytes + j) (by omega) (by omega)
        rw [this]
        congr 1
        omega
      rw [sc_checkpoints_header_pass _ sm
        (by simp only [entryState]; omega)
        (by simp only [entryState, U32]; omega)
        (fun hv => by rw [hml_read]; exact H.hpol1 (by
          simpa [entryState] using hv))
        (fun hv => by rw [hml_read]; exact H.hpol2 (by
          simpa [entryState] using hv))]
      rw [hml_read]
      rw [entry_set_ml sc (frameBytes sc cmd cctrl mlen p) mlen k (by omega)]
    · rw [sc_checkpoints_none _ sm
        (by simp only [entryState]; omega)
        (by simp only [entryState, U32]; omega)
        (by
          simp only [entryState]
          by_cases hle : sc.frame_start_bytes + sc.cmd_bytes + sc.ts_bytes +
              sc.len_bytes ≤ k
          · rw [if_pos hle]
            simp only [U32]
            omega
          · rw [if_neg hle]
            simp only [U32]
            omega)]
      rw [entry_eq_accum sc (frameBytes sc cmd cctrl mlen p) mlen k (by omega)]

theorem sc_feed_singleton (t : SC) (sm : List SercommMsg) (b : Nat) :
    sc_feed t sm [b] = sc_get_message t sm b := by
  rw [sc_feed_cons]
  simp [sc_feed_nil]

theorem roundtrip_accum (sc : SC) (sm : List SercommMsg) (cmd cctrl mlen : Nat)
    (p : List Nat) (H : RTH sc cmd cctrl mlen p)
    (hstale : frameLen sc sc.message_len < U32) (hb0 : sc.buffer_len = 0) :
    ∀ k, k < frameLen sc mlen →
      sc_feed sc sm ((frameBytes sc cmd cctrl mlen p).take k) =
        (accumState sc (frameBytes sc cmd cctrl mlen p) mlen k, []) := by
  intro k
  induction k with
  | zero =>
    intro _
    rw [List.take_zero, sc_feed_nil,
      accumState_zero sc _ mlen hb0 H.hcw]
  | succ n ih =>
    intro hk
    rw [take_succ_getD _ _ (by rw [frameBytes_length]; omega)]
    rw [sc_feed_append, ih (by omega), sc_feed_singleton,
      roundtrip_step sc sm cmd cctrl mlen p H hstale n hk]
    simp

theorem roundtrip_final (sc : SC) (sm : List SercommMsg) (cmd cctrl mlen : Nat)
    (p : List Nat) (H : RTH sc cmd cctrl mlen p)
    (i : Nat) (hdisp : dispatchScan sm cmd = some i) :
    ∃ t : SC,
      sc_get_message
        (accumState sc (frameBytes sc cmd cctrl mlen p) mlen
          (frameLen sc mlen - 1)) sm
        ((frameBytes sc cmd cctrl mlen p).getD (frameLen sc mlen - 1) 0) =
        (t, [Event.handler i cmd (sc.frame_start_bytes + sc.cmd_bytes) mlen
          (sc.frame_start_bytes + sc.cmd_bytes + sc.ts_bytes + sc.len_bytes)
          p cctrl sc.priv]) ∧
      t.buffer_len = 0 := by
  obtain ⟨hf, hh⟩ := Option.isSome_iff_exists.mp H.hhs
  have hcw := H.hcw
  have hlw := H.hlw
  have hc1 : 1 ≤ sc.cmd_bytes := by rcases hcw with h | h | h <;> omega
  have hl1 : 1 ≤ sc.len_bytes := by rcases hlw with h | h | h <;> omega
  have hhw1 := H.hhw
  have hsm : sc.frame_start_bytes + sc.cmd_bytes + sc.ts_bytes + sc.len_bytes +
      mlen + sc.hash_bytes + sc.comm_ctrl_bytes < 4294967296 := by
    have := H.hsmall
    unfold frameLen at this
    simpa [U32] using this
  have hLd : frameLen sc mlen = sc.frame_start_bytes + sc.cmd_bytes +
      sc.ts_bytes + sc.len_bytes + mlen + sc.hash_bytes +
      sc.comm_ctrl_bytes := rfl
  have hL1 : 1 ≤ frameLen sc mlen := by rw [hLd]; omega
  have hkk : frameLen sc mlen - 1 + 1 = frameLen sc mlen := by omega
  rw [roundtrip_entry sc sm cmd cctrl mlen p H (frameLen sc mlen - 1)
    (by simp only [U32]; rw [hLd] at *; omega) (by omega)]
  have hment : (entryState sc (frameBytes sc cmd cctrl mlen p) mlen
      (frameLen sc mlen - 1)).message_len = mlen := by
    simp only [entryState]
    rw [if_pos (by rw [hLd] at *; omega)]
  have hhlen : ((entryState sc (frameBytes sc cmd cctrl mlen p) mlen
        (frameLen sc mlen - 1)).cmd_bytes +
      (entryState sc (frameBytes sc cmd cctrl mlen p) mlen
        (frameLen sc mlen - 1)).ts_bytes +
      (entryState sc (frameBytes sc cmd cctrl mlen p) mlen
        (frameLen sc mlen - 1)).len_bytes +
      (entryState sc (frameBytes sc cmd cctrl mlen p) mlen
        (frameLen sc mlen - 1)).message_len) % U32 =
      sc.cmd_bytes + sc.ts_bytes + sc.len_bytes + mlen := by
    rw [hment]
    simp only [entryState, U32]
    omega
  have hblen : (entryState sc (frameBytes sc cmd cctrl mlen p) mlen
      (frameLen sc mlen - 1)).buffer_len = frameLen sc mlen := by
    simp only [entryState]
    omega
  have hbuf_at : ∀ x, x < frameLen sc mlen →
      (entryState sc (frameBytes sc cmd cctrl mlen p) mlen
        (frameLen sc mlen - 1)).buffer x =
        (frameBytes sc cmd cctrl mlen p).getD x 0 := by
    intro x hx
    simp only [entryState]
    rw [if_pos (by omega)]
  have hinput2 : readBytes
      (entryState sc (frameBytes sc cmd cctrl mlen p) mlen
        (frameLen sc mlen - 1)).buffer
      (entryState sc (frameBytes sc cmd cctrl mlen p) mlen
        (frameLen sc mlen - 1)).frame_start_bytes
      (((entryState sc (frameBytes sc cmd cctrl mlen p) mlen
          (frameLen sc mlen - 1)).cmd_bytes +
        (entryState sc (frameBytes sc cmd cctrl mlen p) mlen
          (frameLen sc mlen - 1)).ts_bytes +
        (entryState sc (frameBytes sc cmd cctrl mlen p) mlen
          (frameLen sc mlen - 1)).len_bytes +
        (entryState sc (frameBytes sc cmd cctrl mlen p) mlen
          (frameLen sc mlen - 1)).message_len) % U32) =
      hashInput sc cmd mlen p := by
    rw [hhlen]
    apply list_eq_of_getD
    · rw [readBytes_length]
      unfold hashInput
      simp [padTo_length, fieldBytes_length, tsField_length]
      omega
    · intro j hj
      rw [readBytes_length] at hj
      rw [readBytes_getD _ _ _ _ hj]
      have hfs2 : (entryState sc (frameBytes sc cmd cctrl mlen p) mlen
          (frameLen sc mlen - 1)).frame_start_bytes =
          sc.frame_start_bytes := rfl
      rw [hfs2, hbuf_at (sc.frame_start_bytes + j) (by rw [hLd]; omega)]
      exact frameBytes_hash_region sc cmd cctrl mlen p j hj
  have hW_at : ∀ x, x < frameLen sc mlen →
      writeBytes
        (entryState sc (frameBytes sc cmd cctrl mlen p) mlen
          (frameLen sc mlen - 1)).buffer
        (entryState sc (frameBytes sc cmd cctrl mlen p) mlen
          (frameLen sc mlen - 1)).buffer_len
        (padTo (hf (readBytes
          (entryState sc (frameBytes sc cmd cctrl mlen p) mlen
            (frameLen sc mlen - 1)).buffer
          (entryState sc (frameBytes sc cmd cctrl mlen p) mlen
            (frameLen sc mlen - 1)).frame_start_bytes
          (((entryState sc (frameBytes sc cmd cctrl mlen p) mlen
              (frameLen sc mlen - 1)).cmd_bytes +
            (entryState sc (frameBytes sc cmd cctrl mlen p) mlen
              (frameLen sc mlen - 1)).ts_bytes +
            (entryState sc (frameBytes sc cmd cctrl mlen p) mlen
              (frameLen sc mlen - 1)).len_bytes +
            (entryState sc (frameBytes sc cmd cctrl mlen p) mlen
              (frameLen sc mlen - 1)).message_len) % U32)))
          (entryState sc (frameBytes sc cmd cctrl mlen p) mlen
            (frameLen sc mlen - 1)).hash_bytes) x =
        (frameBytes sc cmd cctrl mlen p).getD x 0 := by
    intro x hx
    rw [writeBytes_lt _ _ _ _ (by rw [hblen]; omega)]
    exact hbuf_at x hx
  have hm : readBytes
      (writeBytes
        (entryState sc (frameBytes sc cmd cctrl mlen p) mlen
          (frameLen sc mlen - 1)).buffer
        (entryState sc (frameBytes sc cmd cctrl mlen p) mlen
          (frameLen sc mlen - 1)).buffer_len
        (padTo (hf (readBytes
          (entryState sc (frameBytes sc cmd cctrl mlen p) mlen
            (frameLen sc mlen - 1)).buffer
          (entryState sc (frameBytes sc cmd cctrl mlen p) mlen
            (frameLen sc mlen - 1)).frame_start_bytes
          (((entryState sc (frameBytes sc cmd cctrl mlen p) mlen
              (frameLen sc mlen - 1)).cmd_bytes +
            (entryState sc (frameBytes sc cmd cctrl mlen p) mlen
              (frameLen sc mlen - 1)).ts_bytes +
            (entryState sc (frameBytes sc cmd cctrl mlen p) mlen
              (frameLen sc mlen - 1)).len_bytes +
            (entryState sc (frameBytes sc cmd cctrl mlen p) mlen
              (frameLen sc mlen - 1)).message_len) % U32)))
          (entryState sc (frameBytes sc cmd cctrl mlen p) mlen
            (frameLen sc mlen - 1)).hash_bytes))
      (entryState sc (frameBytes sc cmd cctrl mlen p) mlen
        (frameLen sc mlen - 1)).buffer_len
      (entryState sc (frameBytes sc cmd cctrl mlen p) mlen
        (frameLen sc mlen - 1)).hash_bytes =
      readBytes
      (writeBytes
        (entryState sc (frameBytes sc cmd cctrl mlen p) mlen
          (frameLen sc mlen - 1)).buffer
        (entryState sc (frameBytes sc cmd cctrl mlen p) mlen
          (frameLen sc mlen - 1)).buffer_len
        (padTo (hf (readBytes
          (entryState sc (frameBytes sc cmd cctrl mlen p) mlen
            (frameLen sc mlen - 1)).buffer
          (entryState sc (frameBytes sc cmd cctrl mlen p) mlen
            (frameLen sc mlen - 1)).frame_start_bytes
          (((entryState sc (frameBytes sc cmd cctrl mlen p) mlen
              (frameLen sc mlen - 1)).cmd_bytes +
            (entryState sc (frameBytes sc cmd cctrl mlen p) mlen
              (frameLen sc mlen - 1)).ts_bytes +
            (entryState sc (frameBytes sc cmd cctrl mlen p) mlen
              (frameLen sc mlen - 1)).len_bytes +
            (entryState sc (frameBytes sc cmd cctrl mlen p) mlen
              (frameLen sc mlen - 1)).message_len) % U32)))
          (entryState sc (frameBytes sc cmd cctrl mlen p) mlen
            (frameLen sc mlen - 1)).hash_bytes))
      ((((entryState sc (frameBytes sc cmd cctrl mlen p) mlen
            (frameLen sc mlen - 1)).cmd_bytes +
          (entryState sc (frameBytes sc cmd cctrl mlen p) mlen
            (frameLen sc mlen - 1)).ts_bytes +
          (entryState sc (frameBytes sc cmd cctrl mlen p) mlen
            (frameLen sc mlen - 1)).len_bytes +
          (entryState sc (frameBytes sc cmd cctrl mlen p) mlen
            (frameLen sc mlen - 1)).message_len) % U32 +
        (entryState sc (frameBytes sc cmd cctrl mlen p) mlen
          (frameLen sc mlen - 1)).frame_start_bytes) % U32)
      (entryState sc (frameBytes sc cmd cctrl mlen p) mlen
        (frameLen sc mlen - 1)).hash_bytes := by
    rw [hinput2, hhlen]
    simp only [entryState]
    rw [hkk]
    have hhoff : (sc.cmd_bytes + sc.ts_bytes + sc.len_bytes + mlen +
        sc.frame_start_bytes) % U32 =
        sc.frame_start_bytes + sc.cmd_bytes + sc.ts_bytes + sc.len_bytes +
          mlen := by
      simp only [U32]
      omega
    rw [hhoff]
    apply list_eq_of_getD
    · simp [readBytes_length]
    · intro j hj
      rw [readBytes_length] at hj
      rw [readBytes_getD _ _ _ _ hj, readBytes_getD _ _ _ _ hj]
      rw [writeBytes_at _ _ _ (frameLen sc mlen + j) (by omega)
        (by rw [padTo_length]; omega)]
      rw [writeBytes_lt _ _ _
        (sc.frame_start_bytes + sc.cmd_bytes + sc.ts_bytes + sc.len_bytes +
          mlen + j) (by rw [hLd]; omega)]
      rw [if_pos (by rw [hLd]; omega)]
      rw [frameBytes_getD_hash sc cmd cctrl mlen p _ (by omega) (by
        rw [hLd] at *
        omega)]
      unfold hashField
      rw [hh]
      congr 1
      omega
  rw [sc_checkpoints_complete_match _ sm hf (by simpa [entryState] using hh)
    (by simp only [entryState]; rw [hLd] at *; omega)
    (by simp only [entryState, U32]; rw [hLd] at *; omega)
    (by
      simp only [entryState]
      rw [if_pos (by rw [hLd] at *; omega)]
      simp only [U32]
      rw [hLd] at *
      omega)
    hm]
  have hcmdr : read_field
      (writeBytes
        (entryState sc (frameBytes sc cmd cctrl mlen p) mlen
          (frameLen sc mlen - 1)).buffer
        (entryState sc (frameBytes sc cmd cctrl mlen p) mlen
          (frameLen sc mlen - 1)).buffer_len
        (padTo (hf (readBytes
          (entryState sc (frameBytes sc cmd cctrl mlen p) mlen
            (frameLen sc mlen - 1)).buffer
          (entryState sc (frameBytes sc cmd cctrl mlen p) mlen
            (frameLen sc mlen - 1)).frame_start_bytes
          (((entryState sc (frameBytes sc cmd cctrl mlen p) mlen
              (frameLen sc mlen - 1)).cmd_bytes +
            (entryState sc (frameBytes sc cmd cctrl mlen p) mlen
              (frameLen sc mlen - 1)).ts_bytes +
            (entryState sc (frameBytes sc cmd cctrl mlen p) mlen
              (frameLen sc mlen - 1)).len_bytes +
            (entryState sc (frameBytes sc cmd cctrl mlen p) mlen
              (frameLen sc mlen - 1)).message_len) % U32)))
          (entryState sc (frameBytes sc cmd cctrl mlen p) mlen
            (frameLen sc mlen - 1)).hash_bytes))
      (entryState sc (frameBytes sc cmd cctrl mlen p) mlen
        (frameLen sc mlen - 1)).frame_start_bytes
      (entryState sc (frameBytes sc cmd cctrl mlen p) mlen
        (frameLen sc mlen - 1)).cmd_bytes 0 = cmd := by
    apply read_field_of_region _ _ _ _ _ (by simpa [entryState] using hcw)
      (by simpa [entryState] using H.hcmd)
    intro j hj
    simp only [entryState] at hj
    rw [hW_at ((entryState sc (frameBytes sc cmd cctrl mlen p) mlen
      (frameLen sc mlen - 1)).frame_start_bytes + j)
      (by simp only [entryState]; rw [hLd]; omega)]
    have := frameBytes_getD_cmd sc cmd cctrl mlen p
      ((entryState sc (frameBytes sc cmd cctrl mlen p) mlen
        (frameLen sc mlen - 1)).frame_start_bytes + j) (by
        simp only [entryState]
        omega) (by
        simp only [entryState]
        omega)
    rw [this]
    congr 1
    simp only [entryState]
    omega
  rw [hcmdr, hdisp]
  have hccr : (if 0 < (entryState sc (frameBytes sc cmd cctrl mlen p) mlen
        (frameLen sc mlen - 1)).comm_ctrl_bytes then
      read_field
        (writeBytes
          (entryState sc (frameBytes sc cmd cctrl mlen p) mlen
            (frameLen sc mlen - 1)).buffer
          (entryState sc (frameBytes sc cmd cctrl mlen p) mlen
            (frameLen sc mlen - 1)).buffer_len
          (padTo (hf (readBytes
            (entryState sc (frameBytes sc cmd cctrl mlen p) mlen
              (frameLen sc mlen - 1)).buffer
            (entryState sc (frameBytes sc cmd cctrl mlen p) mlen
              (frameLen sc mlen - 1)).frame_start_bytes
            (((entryState sc (frameBytes sc cmd cctrl mlen p) mlen
                (frameLen sc mlen - 1)).cmd_bytes +
              (entryState sc (frameBytes sc cmd cctrl mlen p) mlen
                (frameLen sc mlen - 1)).ts_bytes +
              (entryState sc (frameBytes sc cmd cctrl mlen p) mlen
                (frameLen sc mlen - 1)).len_bytes +
              (entryState sc (frameBytes sc cmd cctrl mlen p) mlen
                (frameLen sc mlen - 1)).message_len) % U32)))
            (entryState sc (frameBytes sc cmd cctrl mlen p) mlen
              (frameLen sc mlen - 1)).hash_bytes))
        (sub32 (entryState sc (frameBytes sc cmd cctrl mlen p) mlen
            (frameLen sc mlen - 1)).buffer_len
          (entryState sc (frameBytes sc cmd cctrl mlen p) mlen
            (frameLen sc mlen - 1)).comm_ctrl_bytes)
        (entryState sc (frameBytes sc cmd cctrl mlen p) mlen
          (frameLen sc mlen - 1)).comm_ctrl_bytes 0
    else 0) = cctrl := by
    rcases H.hctw with hz | hctw3
    · rw [if_neg (by simp [entryState, hz])]
      have := H.hcc
      rw [hz] at this
      simp at this
      omega
    · rw [if_pos (by
        simp only [entryState]
        rcases hctw3 with h | h | h <;> omega)]
      have hc4 : 1 ≤ sc.comm_ctrl_bytes := by
        rcases hctw3 with h | h | h <;> omega
      have hsub : sub32 (entryState sc (frameBytes sc cmd cctrl mlen p) mlen
          (frameLen sc mlen - 1)).buffer_len
          (entryState sc (frameBytes sc cmd cctrl mlen p) mlen
            (frameLen sc mlen - 1)).comm_ctrl_bytes =
          frameLen sc mlen - sc.comm_ctrl_bytes := by
        rw [hblen]
        apply sub32_eq_sub
        · simp only [entryState]
          rw [hLd]
          omega
        · simp only [U32]
          rw [hLd]
          omega
      rw [hsub]
      apply read_field_of_region _ _ _ _ _ (by simpa [entryState] using hctw3)
        (by simpa [entryState] using H.hcc)
      intro j hj
      simp only [entryState] at hj
      rw [hW_at (frameLen sc mlen - sc.comm_ctrl_bytes + j)
        (by rw [hLd] at *; omega)]
      have := frameBytes_getD_ctrl sc cmd cctrl mlen p
        (frameLen sc mlen - sc.comm_ctrl_bytes + j) (by
          rw [hLd] at *
          omega) (by
          rw [hLd] at *
          omega)
      rw [this]
      congr 1
      rw [hLd] at *
      omega
  rw [hccr]
  have hpay : readBytes
      (writeBytes
        (entryState sc (frameBytes sc cmd cctrl mlen p) mlen
          (frameLen sc mlen - 1)).buffer
        (entryState sc (frameBytes sc cmd cctrl mlen p) mlen
          (frameLen sc mlen - 1)).buffer_len
        (padTo (hf (readBytes
          (entryState sc (frameBytes sc cmd cctrl mlen p) mlen
            (frameLen sc mlen - 1)).buffer
          (entryState sc (frameBytes sc cmd cctrl mlen p) mlen
            (frameLen sc mlen - 1)).frame_start_bytes
          (((entryState sc (frameBytes sc cmd cctrl mlen p) mlen
              (frameLen sc mlen - 1)).cmd_bytes +
            (entryState sc (frameBytes sc cmd cctrl mlen p) mlen
              (frameLen sc mlen - 1)).ts_bytes +
            (entryState sc (frameBytes sc cmd cctrl mlen p) mlen
              (frameLen sc mlen - 1)).len_bytes +
            (entryState sc (frameBytes sc cmd cctrl mlen p) mlen
              (frameLen sc mlen - 1)).message_len) % U32)))
          (entryState sc (frameBytes sc cmd cctrl mlen p) mlen
            (frameLen sc mlen - 1)).hash_bytes))
      (((entryState sc (frameBytes sc cmd cctrl mlen p) mlen
          (frameLen sc mlen - 1)).frame_start_bytes +
        (entryState sc (frameBytes sc cmd cctrl mlen p) mlen
          (frameLen sc mlen - 1)).cmd_bytes +
        (entryState sc (frameBytes sc cmd cctrl mlen p) mlen
          (frameLen sc mlen - 1)).ts_bytes +
        (entryState sc (frameBytes sc cmd cctrl mlen p) mlen
          (frameLen sc mlen - 1)).len_bytes) % U32)
      (entryState sc (frameBytes sc cmd cctrl mlen p) mlen
        (frameLen sc mlen - 1)).message_len = p := by
    have hs1m : ((entryState sc (frameBytes sc cmd cctrl mlen p) mlen
        (frameLen sc mlen - 1)).frame_start_bytes +
        (entryState sc (frameBytes sc cmd cctrl mlen p) mlen
          (frameLen sc mlen - 1)).cmd_bytes +
        (entryState sc (frameBytes sc cmd cctrl mlen p) mlen
          (frameLen sc mlen - 1)).ts_bytes +
        (entryState sc (frameBytes sc cmd cctrl mlen p) mlen
          (frameLen sc mlen - 1)).len_bytes) % U32 =
        sc.frame_start_bytes + sc.cmd_bytes + sc.ts_bytes + sc.len_bytes := by
      simp only [entryState, U32]
      omega
    apply list_eq_of_getD
    · rw [readBytes_length, hment, H.hp]
    · intro j hj
      rw [readBytes_length] at hj
      have hj2 : j < mlen := hment ▸ hj
      rw [readBytes_getD _ _ _ _ hj]
      rw [hW_at (((entryState sc (frameBytes sc cmd cctrl mlen p) mlen
          (frameLen sc mlen - 1)).frame_start_bytes +
        (entryState sc (frameBytes sc cmd cctrl mlen p) mlen
          (frameLen sc mlen - 1)).cmd_bytes +
        (entryState sc (frameBytes sc cmd cctrl mlen p) mlen
          (frameLen sc mlen - 1)).ts_bytes +
        (entryState sc (frameBytes sc cmd cctrl mlen p) mlen
          (frameLen sc mlen - 1)).len_bytes) % U32 + j)
        (by rw [hs1m, hLd]; omega)]
      rw [hs1m]
      have := frameBytes_getD_payload sc cmd cctrl mlen p
        (sc.frame_start_bytes + sc.cmd_bytes + sc.ts_bytes + sc.len_bytes + j)
        (by omega) (by omega)
      clear hj
      rw [this]
      congr 1
      omega
  rw [hpay]
  have hs1m2 : ((entryState sc (frameBytes sc cmd cctrl mlen p) mlen
      (frameLen sc mlen - 1)).frame_start_bytes +
      (entryState sc (frameBytes sc cmd cctrl mlen p) mlen
        (frameLen sc mlen - 1)).cmd_bytes +
      (entryState sc (frameBytes sc cmd cctrl mlen p) mlen
        (frameLen sc mlen - 1)).ts_bytes +
      (entryState sc (frameBytes sc cmd cctrl mlen p) mlen
        (frameLen sc mlen - 1)).len_bytes) % U32 =
      sc.frame_start_bytes + sc.cmd_bytes + sc.ts_bytes + sc.len_bytes := by
    simp only [entryState, U32]
    omega
  rw [hs1m2, hment]
  exact ⟨_, rfl, rfl⟩

theorem roundtrip_main (sc : SC) (sm : List SercommMsg) (cmd cctrl mlen : Nat)
    (p : List Nat) (H : RTH sc cmd cctrl mlen p)
    (hstale : frameLen sc sc.message_len < U32) (hb0 : sc.buffer_len = 0)
    (i : Nat) (hdisp : dispatchScan sm cmd = some i) :
    ∃ t : SC,
      sc_feed sc sm (frameBytes sc cmd cctrl mlen p) =
        (t, [Event.handler i cmd (sc.frame_start_bytes + sc.cmd_bytes) mlen
          (sc.frame_start_bytes + sc.cmd_bytes + sc.ts_bytes + sc.len_bytes)
          p cctrl sc.priv]) ∧
      t.buffer_len = 0 := by
  have hflen := frameBytes_length sc cmd cctrl mlen p
  have hL1 : 1 ≤ frameLen sc mlen := by
    have := H.hhw
    unfold frameLen
    omega
  have hsplit : frameBytes sc cmd cctrl mlen p =
      (frameBytes sc cmd cctrl mlen p).take (frameLen sc mlen - 1) ++
        [(frameBytes sc cmd cctrl mlen p).getD (frameLen sc mlen - 1) 0] := by
    rw [← take_succ_getD _ _ (by rw [hflen]; omega)]
    rw [show frameLen sc mlen - 1 + 1 = frameLen sc mlen from by omega]
    rw [← hflen, List.take_length]
  rw [hsplit, sc_feed_append,
    roundtrip_accum sc sm cmd cctrl mlen p H hstale hb0
      (frameLen sc mlen - 1) (by omega),
    sc_feed_singleton]
  obtain ⟨t, ht, htb⟩ := roundtrip_final sc sm cmd cctrl mlen p H i hdisp
  rw [ht]
  exact ⟨t, by simp, htb⟩

/-! Transport of the round-trip hypotheses along configuration equality, and
the reset-run counting argument. -/

theorem frameLen_congr (a b : SC) (h : sameConfig a b) (m : Nat) :
    frameLen a m = frameLen b m := by
  obtain ⟨e1, e2, e3, e4, e5, e6, e7, e8, e9, e10, e11, e12, e13, e14, e15⟩ := h
  unfold frameLen
  rw [e8, e1, e2, e4, e5, e7]

theorem frameBytes_congr (a b : SC) (h : sameConfig a b)
    (cmd cctrl mlen : Nat) (p : List Nat) :
    frameBytes a cmd cctrl mlen p = frameBytes b cmd cctrl mlen p := by
  obtain ⟨e1, e2, e3, e4, e5, e6, e7, e8, e9, e10, e11, e12, e13, e14, e15⟩ := h
  unfold frameBytes tsField hashField hashInput tsField
  rw [e15, e8, e1, e3, e2, e4, e6, e5, e7]

theorem RTH_congr (a b : SC) (h : sameConfig a b) (cmd cctrl mlen : Nat)
    (p : List Nat) (H : RTH b cmd cctrl mlen p) : RTH a cmd cctrl mlen p := by
  have hfl := frameLen_congr a b h mlen
  have hfb := frameBytes_congr a b h cmd cctrl mlen p
  obtain ⟨e1, e2, e3, e4, e5, e6, e7, e8, e9, e10, e11, e12, e13, e14, e15⟩ := h
  refine ⟨?_, ?_, ?_, ?_, ?_, ?_, ?_, ?_, ?_, ?_, ?_, ?_, ?_⟩
  · rw [e1]; exact H.hcw
  · rw [e4]; exact H.hlw
  · rw [e7]; exact H.hctw
  · rw [e6]; exact H.hhs
  · rw [e5]; exact H.hhw
  · rw [hfl]; exact H.hsmall
  · rw [e4]; exact H.hml
  · exact H.hp
  · rw [e1]; exact H.hcmd
  · rw [e7]; exact H.hcc
  · rw [e12]; exact H.hpol1
  · rw [e12, e13]; exact H.hpol2
  · rw [e10, e9, hfb]; exact H.hres

theorem reset_run_count (sm : List SercommMsg) :
    ∀ (n : Nat) (sc : SC), sc.reset_bytes ≠ SERCOMM_OMIT_RESET →
    sc.reset = true → sc.buffer_reset_bytes + n < 256 →
    ((sc_feed sc sm (List.replicate n sc.reset_byte)).1.buffer_reset_bytes =
      sc.buffer_reset_bytes + n) ∧
    ((sc_feed sc sm (List.replicate n sc.reset_byte)).2.count Event.reset =
      if sc.buffer_reset_bytes < sc.reset_bytes ∧
        sc.reset_bytes ≤ sc.buffer_reset_bytes + n then 1 else 0) ∧
    (sc.buffer_reset_bytes < sc.reset_bytes ∧
      sc.reset_bytes = sc.buffer_reset_bytes + n →
      (sc_feed sc sm (List.replicate n sc.reset_byte)).1.buffer_len = 0) := by
  intro n
  induction n with
  | zero =>
    intro sc hOM hr hlt
    rw [List.replicate_zero, sc_feed_nil]
    refine ⟨rfl, ?_, ?_⟩
    · rw [if_neg (by omega)]
      rfl
    · intro h
      omega
  | succ m ih =>
    intro sc hOM hr hlt
    rw [List.replicate_succ, sc_feed_cons]
    by_cases htr : sc.reset_bytes = (sc.buffer_reset_bytes + 1) % 256
    · rw [sc_get_message_trigger sc sm hOM htr]
      have hcm : (sc.buffer_reset_bytes + 1) % 256 =
          sc.buffer_reset_bytes + 1 := by omega
      rw [hcm] at htr
      simp only [hcm, if_pos hr]
      have ihm := ih { sc with
        buffer := writeBytes sc.buffer sc.buffer_len [sc.reset_byte],
        buffer_len := 0,
        buffer_reset_bytes := (sc.buffer_reset_bytes + 1) % 256 }
        hOM hr (by simp only [hcm]; omega)
      simp only [hcm] at ihm
      obtain ⟨ih1, ih2, ih3⟩ := ihm
      refine ⟨?_, ?_, ?_⟩
      · rw [ih1]
        omega
      · rw [List.count_append, ih2]
        have h0 : ¬(sc.buffer_reset_bytes + 1 < sc.reset_bytes ∧
            sc.reset_bytes ≤ sc.buffer_reset_bytes + 1 + m) := by omega
        have h1 : sc.buffer_reset_bytes < sc.reset_bytes ∧
            sc.reset_bytes ≤ sc.buffer_reset_bytes + (m + 1) := by omega
        rw [if_neg h0, if_pos h1]
        decide
      · intro h
        have hm0 : m = 0 := by omega
        subst hm0
        rw [List.replicate_zero, sc_feed_nil]
    · rw [sc_get_message_count sc sm hOM htr]
      have hcm : (sc.buffer_reset_bytes + 1) % 256 =
          sc.buffer_reset_bytes + 1 := by omega
      obtain ⟨hcfg, hbrb, hnor⟩ := sc_checkpoints_config { sc with
        buffer := writeBytes sc.buffer sc.buffer_len [sc.reset_byte],
        buffer_len := (sc.buffer_len + 1) % U32,
        buffer_reset_bytes := (sc.buffer_reset_bytes + 1) % 256 } sm
      obtain ⟨f1, f2, f3, f4, f5, f6, f7, f8, f9, f10, f11, f12, f13, f14,
        f15⟩ := hcfg
      have hbrb2 : (sc_checkpoints { sc with
          buffer := writeBytes sc.buffer sc.buffer_len [sc.reset_byte],
          buffer_len := (sc.buffer_len + 1) % U32,
          buffer_reset_bytes := (sc.buffer_reset_bytes + 1) % 256 }
          sm).1.buffer_reset_bytes = sc.buffer_reset_bytes + 1 := by
        rw [hbrb]
        exact hcm
      have ihm := ih (sc_checkpoints { sc with
        buffer := writeBytes sc.buffer sc.buffer_len [sc.reset_byte],
        buffer_len := (sc.buffer_len + 1) % U32,
        buffer_reset_bytes := (sc.buffer_reset_bytes + 1) % 256 } sm).1
        (by rw [f10]; exact hOM) (by rw [f11]; exact hr)
        (by rw [hbrb2]; omega)
      have e9 : ({ sc with
          buffer := writeBytes sc.buffer sc.buffer_len [sc.reset_byte],
          buffer_len := (sc.buffer_len + 1) % U32,
          buffer_reset_bytes := (sc.buffer_reset_bytes + 1) % 256 } :
          SC).reset_byte = sc.reset_byte := rfl
      have e10 : ({ sc with
          buffer := writeBytes sc.buffer sc.buffer_len [sc.reset_byte],
          buffer_len := (sc.buffer_len + 1) % U32,
          buffer_reset_bytes := (sc.buffer_reset_bytes + 1) % 256 } :
          SC).reset_bytes = sc.reset_bytes := rfl
      rw [f9, e9, f10, e10, hbrb2] at ihm
      obtain ⟨ih1, ih2, ih3⟩ := ihm
      rw [hcm] at htr
      refine ⟨?_, ?_, ?_⟩
      · rw [ih1]
        omega
      · rw [List.count_append, ih2]
        have hcnt0 : (sc_checkpoints { sc with
            buffer := writeBytes sc.buffer sc.buffer_len [sc.reset_byte],
            buffer_len := (sc.buffer_len + 1) % U32,
            buffer_reset_bytes := (sc.buffer_reset_bytes + 1) % 256 }
            sm).2.count Event.reset = 0 := List.count_eq_zero.mpr hnor
        rw [hcnt0]
        by_cases hcase : sc.buffer_reset_bytes + 1 < sc.reset_bytes ∧
            sc.reset_bytes ≤ sc.buffer_reset_bytes + 1 + m
        · have hD : sc.buffer_reset_bytes < sc.reset_bytes ∧
              sc.reset_bytes ≤ sc.buffer_reset_bytes + (m + 1) := by omega
          rw [if_pos hcase, if_pos hD]
        · have hD : ¬(sc.buffer_reset_bytes < sc.reset_bytes ∧
              sc.reset_bytes ≤ sc.buffer_reset_bytes + (m + 1)) := by omega
          rw [if_neg hcase, if_neg hD]
      · intro h
        exact ih3 (by omega)


/-! The claim theorems. -/

/-- C2: with sync pattern 00 01, a one-byte command, a one-byte length and no
timestamp, hash or control field, encoding command 5 with payload AA BB does
yield the six bytes 00 01 05 02 AA BB; but feeding those six bytes into
sc_get_message with a handler registered for command 5 invokes nothing: the
completion checkpoint is a no-op when no hasher is configured, the event list
is empty and the whole frame stays in the buffer.  This contradicts the
claimed (and documented) dispatch of the valid message. -/
theorem C2_example_no_dispatch :
    sc_encode scC2 5 0 (some [170, 187]) 2 100 = [0, 1, 5, 2, 170, 187] ∧
    dispatchScan smDemo 5 = some 1 ∧
    (sc_feed scC2 smDemo [0, 1, 5, 2, 170, 187]).2 = [] ∧
    (sc_feed scC2 smDemo [0, 1, 5, 2, 170, 187]).1.buffer_len = 6 := by
  refine ⟨by decide, by decide, by decide, by decide⟩

/-- C4: when no hasher is configured and the appended byte brings buffer_len
exactly to the completion threshold (sync + command + timestamp + length +
message_len + hash + control widths), sc_get_message performs no validation
and no dispatch and does not flush: the new state is exactly the old state
with the byte appended and buffer_len incremented, and no events are
emitted. -/
theorem C4_no_hasher_completion_stuck (t : SC) (sm : List SercommMsg)
    (b : Nat)
    (hh : t.hash = none)
    (hres : t.reset_bytes = SERCOMM_OMIT_RESET)
    (hsum : t.frame_start_bytes + t.cmd_bytes + t.ts_bytes + t.len_bytes +
      t.message_len + t.hash_bytes + t.comm_ctrl_bytes < U32)
    (h1 : t.buffer_len + 1 ≠ t.frame_start_bytes)
    (h2 : t.buffer_len + 1 ≠ t.frame_start_bytes + t.cmd_bytes + t.ts_bytes +
      t.len_bytes)
    (h3 : t.buffer_len + 1 = t.frame_start_bytes + t.cmd_bytes + t.ts_bytes +
      t.len_bytes + t.message_len + t.hash_bytes + t.comm_ctrl_bytes) :
    sc_get_message t sm b =
      ({ t with
        buffer := writeBytes t.buffer t.buffer_len [b],
        buffer_len := t.buffer_len + 1 }, []) := by
  have hU1 : t.buffer_len + 1 < U32 := by omega
  rw [sc_get_message_skip t sm b hres, Nat.mod_eq_of_lt hU1]
  have h2m : t.buffer_len + 1 ≠ (t.frame_start_bytes + t.cmd_bytes +
      t.ts_bytes + t.len_bytes) % U32 := by
    simp only [U32] at *
    omega
  have h3m : t.buffer_len + 1 = (t.frame_start_bytes + t.cmd_bytes +
      t.ts_bytes + t.len_bytes + t.message_len + t.hash_bytes +
      t.comm_ctrl_bytes) % U32 := by
    simp only [U32] at *
    omega
  exact sc_checkpoints_complete_nohash _ sm hh h1 h2m h3m

/-- C4 witness: in the no-hash configuration scC2 with a decoded message
length of 2, the sixth byte reaches the completion threshold 6 and the call
leaves the frame stuck in the buffer with no events. -/
theorem C4_no_hasher_completion_stuck_witness :
    sc_get_message { scC2 with buffer_len := 5, message_len := 2 } smDemo
      187 =
      ({ scC2 with
        buffer := writeBytes scC2.buffer 5 [187],
        buffer_len := 6,
        message_len := 2 }, []) := by
  exact C4_no_hasher_completion_stuck
    { scC2 with buffer_len := 5, message_len := 2 } smDemo 187 rfl rfl
    (by decide) (by decide) (by decide) (by decide)

/-- C5: sc_make_message fails (returns the untouched output memory and 0)
when the 32-bit total frame length exceeds the output capacity or when the
payload length is positive with no payload pointer, and otherwise returns
the 32-bit total frame length; the length compared and returned is
frameLen reduced mod 2^32, not the mathematical sum the claim states. -/
theorem C5_make_message_failure_modes (sc : SC) (cmd cctrl : Nat)
    (msg : Option (List Nat)) (mlen : Nat) (output : Nat → Nat) (olen : Nat) :
    ((frameLen sc mlen % U32 > olen ∨ (mlen > 0 ∧ msg = none)) →
      sc_make_message sc cmd cctrl msg mlen output olen = (output, 0)) ∧
    (frameLen sc mlen % U32 ≤ olen → ¬(mlen > 0 ∧ msg = none) →
      (sc_make_message sc cmd cctrl msg mlen output olen).2 =
        frameLen sc mlen % U32) := by
  unfold sc_make_message frameLen
  dsimp only []
  constructor
  · intro h
    by_cases h0 : (sc.frame_start_bytes + sc.cmd_bytes + sc.ts_bytes +
        sc.len_bytes + mlen + sc.hash_bytes + sc.comm_ctrl_bytes) % U32 > olen
    · rw [if_pos h0]
    · rcases h with h | h
      · exact absurd h h0
      · rw [if_neg h0, if_pos h]
  · intro hle hn
    have h0 : ¬((sc.frame_start_bytes + sc.cmd_bytes + sc.ts_bytes +
        sc.len_bytes + mlen + sc.hash_bytes + sc.comm_ctrl_bytes) % U32 >
        olen) := by omega
    rw [if_neg h0, if_neg hn]

/-- C5 witness: in scC2 a 2-byte payload gives a frame of 6 bytes; with
capacity 3 the call fails with 0 and the output is untouched, with capacity
100 it returns 6. -/
theorem C5_make_message_failure_modes_witness :
    sc_make_message scC2 5 0 (some [170, 187]) 2 (fun _ => 0) 3 =
      ((fun _ => 0), 0) ∧
    (sc_make_message scC2 5 0 (some [170, 187]) 2 (fun _ => 0) 100).2 =
      6 := by
  constructor
  · exact (C5_make_message_failure_modes scC2 5 0 (some [170, 187]) 2
      (fun _ => 0) 3).1 (Or.inl (by decide))
  · rw [(C5_make_message_failure_modes scC2 5 0 (some [170, 187]) 2
      (fun _ => 0) 100).2 (by decide) (by decide)]
    decide

/-- C5 counterexample: with payload length 2^32 - 2 in scC2 the mathematical
frame length is 2^32 + 2, which exceeds the capacity 2, yet sc_make_message
returns 2 (the sum wrapped to 32 bits) instead of failing with 0, and it
writes into the output (byte 1 of the sync pattern lands in the output). -/
theorem C5_wraparound_counterexample :
    frameLen scC2 4294967294 = 4294967298 ∧
    (sc_make_message scC2 0 0 (some []) 4294967294 (fun _ => 0) 2).2 = 2 ∧
    (sc_make_message scC2 0 0 (some []) 4294967294 (fun _ => 0) 2).1 1 =
      1 := by
  refine ⟨by decide, by decide, by decide⟩

/-- C8: when the appended byte brings buffer_len exactly to sync_len and the
buffered bytes differ from the sync pattern, sc_get_message shifts the buffer
left by one byte (dropping the oldest), decreases buffer_len by exactly 1 to
sync_len - 1, emits nothing, and changes no other state; when they match the
state is exactly the appended state. -/
theorem C8_sync_resynchronization (t : SC) (sm : List SercommMsg) (b : Nat)
    (hres : t.reset_bytes = SERCOMM_OMIT_RESET)
    (hfs : 1 ≤ t.frame_start_bytes)
    (hU : t.frame_start_bytes < U32)
    (heq : t.buffer_len + 1 = t.frame_start_bytes) :
    (readBytes (writeBytes t.buffer t.buffer_len [b]) 0 t.frame_start_bytes ≠
        padTo t.frame_start t.frame_start_bytes →
      sc_get_message t sm b =
        (shift_message { t with
          buffer := writeBytes t.buffer t.buffer_len [b],
          buffer_len := t.buffer_len + 1 } 1 (t.frame_start_bytes - 1),
          []) ∧
      (shift_message { t with
        buffer := writeBytes t.buffer t.buffer_len [b],
        buffer_len := t.buffer_len + 1 } 1
          (t.frame_start_bytes - 1)).buffer_len = t.frame_start_bytes - 1 ∧
      (∀ j, j < t.frame_start_bytes - 1 →
        (shift_message { t with
          buffer := writeBytes t.buffer t.buffer_len [b],
          buffer_len := t.buffer_len + 1 } 1
            (t.frame_start_bytes - 1)).buffer j =
          writeBytes t.buffer t.buffer_len [b] (j + 1)) ∧
      (∀ j, t.frame_start_bytes - 1 ≤ j →
        (shift_message { t with
          buffer := writeBytes t.buffer t.buffer_len [b],
          buffer_len := t.buffer_len + 1 } 1
            (t.frame_start_bytes - 1)).buffer j =
          writeBytes t.buffer t.buffer_len [b] j) ∧
      (shift_message { t with
        buffer := writeBytes t.buffer t.buffer_len [b],
        buffer_len := t.buffer_len + 1 } 1
          (t.frame_start_bytes - 1)).message_len = t.message_len ∧
      (shift_message { t with
        buffer := writeBytes t.buffer t.buffer_len [b],
        buffer_len := t.buffer_len + 1 } 1
          (t.frame_start_bytes - 1)).buffer_reset_bytes =
        t.buffer_reset_bytes) ∧
    (readBytes (writeBytes t.buffer t.buffer_len [b]) 0 t.frame_start_bytes =
        padTo t.frame_start t.frame_start_bytes →
      sc_get_message t sm b =
        ({ t with
          buffer := writeBytes t.buffer t.buffer_len [b],
          buffer_len := t.buffer_len + 1 }, [])) := by
  have hU1 : t.buffer_len + 1 < U32 := by omega
  have hmod : (t.buffer_len + 1) % U32 = t.buffer_len + 1 :=
    Nat.mod_eq_of_lt hU1
  constructor
  · intro hm
    refine ⟨?_, ?_, ?_, ?_, rfl, rfl⟩
    · rw [sc_get_message_skip t sm b hres, hmod]
      exact sc_checkpoints_sync_mismatch _ sm heq hm
    · show sub32 (t.buffer_len + 1) 1 = t.frame_start_bytes - 1
      rw [sub32_eq_sub _ _ (by omega) hU1]
      omega
    · intro j hj
      show (if j < t.frame_start_bytes - 1 then
        writeBytes t.buffer t.buffer_len [b] (j + 1) else
        writeBytes t.buffer t.buffer_len [b] j) = _
      rw [if_pos hj]
    · intro j hj
      show (if j < t.frame_start_bytes - 1 then
        writeBytes t.buffer t.buffer_len [b] (j + 1) else
        writeBytes t.buffer t.buffer_len [b] j) = _
      rw [if_neg (Nat.not_lt.mpr hj)]
  · intro hm
    rw [sc_get_message_skip t sm b hres, hmod]
    exact sc_checkpoints_sync_match _ sm heq hm

/-- C8 witness: in scC2 (sync pattern 00 01) after one buffered byte 00, the
byte 09 mismatches the pattern and is resynchronized away (buffer_len back to
1, the 09 now the oldest byte, no events), while the byte 01 matches and
accumulation continues to buffer_len 2. -/
theorem C8_sync_resynchronization_witness :
    (sc_get_message { scC2 with buffer_len := 1 } smDemo 9).1.buffer_len =
      1 ∧
    (sc_get_message { scC2 with buffer_len := 1 } smDemo 9).1.buffer 0 =
      9 ∧
    (sc_get_message { scC2 with buffer_len := 1 } smDemo 9).2 = [] ∧
    (sc_get_message { scC2 with buffer_len := 1 } smDemo 1).1.buffer_len =
      2 := by
  have h9 := C8_sync_resynchronization { scC2 with buffer_len := 1 } smDemo
    9 rfl (by decide) (by decide) (by decide)
  have h1 := C8_sync_resynchronization { scC2 with buffer_len := 1 } smDemo
    1 rfl (by decide) (by decide) (by decide)
  obtain ⟨ha, _, _, _, _, _⟩ := h9.1 (by decide)
  refine ⟨by rw [ha]; decide, by rw [ha]; decide, by rw [ha],
    by rw [h1.2 (by decide)]⟩

/-- C3: at the completion checkpoint with a hasher configured, the hash is
recomputed over command + timestamp + length + payload and compared
byte-for-byte with the received hash field; on mismatch the frame is flushed
(buffer_len 0) with no events; on match the first dispatch-table entry
(before the NULL-fn sentinel) whose command equals the decoded command is
invoked exactly once with the timestamp-field offset, the message length,
the payload offset and bytes, the decoded control value (0 when the control
width is 0) and the priv context, and the frame is flushed whether or not
an entry matched; the scan is linear and first-match. -/
theorem C3_completion_dispatch (t : SC) (sm : List SercommMsg) (b : Nat)
    (hf : List Nat → List Nat) (b1 scratch : Nat → Nat) (c cc : Nat)
    (hres : t.reset_bytes = SERCOMM_OMIT_RESET)
    (hh : t.hash = some hf)
    (hsum : t.frame_start_bytes + t.cmd_bytes + t.ts_bytes + t.len_bytes +
      t.message_len + t.hash_bytes + t.comm_ctrl_bytes < U32)
    (h1 : t.buffer_len + 1 ≠ t.frame_start_bytes)
    (h2 : t.buffer_len + 1 ≠ t.frame_start_bytes + t.cmd_bytes + t.ts_bytes +
      t.len_bytes)
    (h3 : t.buffer_len + 1 = t.frame_start_bytes + t.cmd_bytes + t.ts_bytes +
      t.len_bytes + t.message_len + t.hash_bytes + t.comm_ctrl_bytes)
    (hb1 : b1 = writeBytes t.buffer t.buffer_len [b])
    (hscr : scratch = writeBytes b1 (t.buffer_len + 1)
      (padTo (hf (readBytes b1 t.frame_start_bytes
        (t.cmd_bytes + t.ts_bytes + t.len_bytes + t.message_len)))
        t.hash_bytes))
    (hc : c = read_field scratch t.frame_start_bytes t.cmd_bytes 0)
    (hcc : cc = if 0 < t.comm_ctrl_bytes then
      read_field scratch (t.buffer_len + 1 - t.comm_ctrl_bytes)
        t.comm_ctrl_bytes 0 else 0) :
    (readBytes scratch (t.buffer_len + 1) t.hash_bytes ≠
        readBytes scratch (t.frame_start_bytes + t.cmd_bytes + t.ts_bytes +
          t.len_bytes + t.message_len) t.hash_bytes →
      sc_get_message t sm b =
        ({ t with buffer := scratch, buffer_len := 0 }, [])) ∧
    (readBytes scratch (t.buffer_len + 1) t.hash_bytes =
        readBytes scratch (t.frame_start_bytes + t.cmd_bytes + t.ts_bytes +
          t.len_bytes + t.message_len) t.hash_bytes →
      sc_get_message t sm b =
        ({ t with buffer := scratch, buffer_len := 0 },
          match dispatchScan sm c with
          | some i => [Event.handler i c
              (t.frame_start_bytes + t.cmd_bytes) t.message_len
              (t.frame_start_bytes + t.cmd_bytes + t.ts_bytes + t.len_bytes)
              (readBytes scratch (t.frame_start_bytes + t.cmd_bytes +
                t.ts_bytes + t.len_bytes) t.message_len) cc t.priv]
          | none => [])) ∧
    (∀ c0 i, dispatchScan sm c0 = some i ↔
      (i < sm.length ∧ (sm.getD i sentinelMsg).hasFn = true ∧
        (sm.getD i sentinelMsg).cmd = c0 ∧
        ∀ j, j < i → (sm.getD j sentinelMsg).hasFn = true ∧
          (sm.getD j sentinelMsg).cmd ≠ c0)) := by
  subst hb1
  subst hscr
  subst hc
  subst hcc
  have hU1 : t.buffer_len + 1 < U32 := by omega
  have hmod : (t.buffer_len + 1) % U32 = t.buffer_len + 1 :=
    Nat.mod_eq_of_lt hU1
  have hml : (t.cmd_bytes + t.ts_bytes + t.len_bytes + t.message_len) % U32 =
      t.cmd_bytes + t.ts_bytes + t.len_bytes + t.message_len := by
    simp only [U32] at *
    omega
  have hoff : ((t.cmd_bytes + t.ts_bytes + t.len_bytes + t.message_len) %
      U32 + t.frame_start_bytes) % U32 =
      t.frame_start_bytes + t.cmd_bytes + t.ts_bytes + t.len_bytes +
        t.message_len := by
    simp only [U32] at *
    omega
  have hs1 : (t.frame_start_bytes + t.cmd_bytes + t.ts_bytes + t.len_bytes) %
      U32 = t.frame_start_bytes + t.cmd_bytes + t.ts_bytes + t.len_bytes := by
    simp only [U32] at *
    omega
  have h2m : t.buffer_len + 1 ≠ (t.frame_start_bytes + t.cmd_bytes +
      t.ts_bytes + t.len_bytes) % U32 := by
    rw [hs1]
    exact h2
  have h3m : t.buffer_len + 1 = (t.frame_start_bytes + t.cmd_bytes +
      t.ts_bytes + t.len_bytes + t.message_len + t.hash_bytes +
      t.comm_ctrl_bytes) % U32 := by
    simp only [U32] at *
    omega
  refine ⟨?_, ?_, fun c0 i => dispatchScan_spec sm c0 i⟩
  · intro hm
    rw [sc_get_message_skip t sm b hres, hmod]
    rw [← hml] at hm
    rw [← hoff] at hm
    rw [sc_checkpoints_complete_mismatch ({ t with
      buffer := writeBytes t.buffer t.buffer_len [b],
      buffer_len := t.buffer_len + 1 }) sm hf hh h1 h2m h3m hm]
    dsimp only []
    rw [hml]
  · intro hm
    rw [sc_get_message_skip t sm b hres, hmod]
    rw [← hml] at hm
    rw [← hoff] at hm
    rw [sc_checkpoints_complete_match ({ t with
      buffer := writeBytes t.buffer t.buffer_len [b],
      buffer_len := t.buffer_len + 1 }) sm hf hh h1 h2m h3m hm]
    dsimp only []
    rw [hml, hs1, sub32_eq_sub (t.buffer_len + 1) t.comm_ctrl_bytes
      (by omega) hU1]

/-- C3 witness: in scDemo with the first seven frame bytes
00 01 05 02 0A 14 25 buffered, the eighth byte (the control value 99)
completes the frame; the recomputed checksum matches, the linear scan skips
the non-matching entry for command 7 and invokes the handler of entry 1
(command 5) with payload 0A 14, control value 99, and the frame is
flushed. -/
theorem C3_completion_dispatch_witness :
    (sc_get_message { scDemo with
      buffer := fun j => List.getD [0, 1, 5, 2, 10, 20, 37] j 0,
      buffer_len := 7,
      message_len := 2 } smDemo 99).2 =
      [Event.handler 1 5 3 2 4 [10, 20] 99 0] ∧
    (sc_get_message { scDemo with
      buffer := fun j => List.getD [0, 1, 5, 2, 10, 20, 37] j 0,
      buffer_len := 7,
      message_len := 2 } smDemo 99).1.buffer_len = 0 := by
  have h := C3_completion_dispatch { scDemo with
      buffer := fun j => List.getD [0, 1, 5, 2, 10, 20, 37] j 0,
      buffer_len := 7,
      message_len := 2 } smDemo 99 _ _ _ _ _ rfl rfl (by decide) (by decide)
    (by decide) (by decide) rfl rfl rfl rfl
  have hmatch := h.2.1 (by decide)
  exact ⟨by rw [hmatch]; decide, by rw [hmatch]⟩

/-- C6: on success (supported field widths, a timestamp callback when the
timestamp field is configured, the frame fits and its length does not wrap)
sc_make_message returns the frame length and the output holds, in order:
sync pattern, command, timestamp, length, payload, hash field, control
value, where the hash field (zero when no hasher is configured) sits
between payload and control and holds the hasher of exactly the bytes from
the command field to the end of the payload. -/
theorem C6_encoder_layout (sc : SC) (cmd cctrl mlen olen : Nat)
    (p : List Nat) (output : Nat → Nat)
    (hcw : sc.cmd_bytes = 1 ∨ sc.cmd_bytes = 2 ∨ sc.cmd_bytes = 4)
    (hlw : sc.len_bytes = 1 ∨ sc.len_bytes = 2 ∨ sc.len_bytes = 4)
    (hctw : sc.comm_ctrl_bytes = 0 ∨ sc.comm_ctrl_bytes = 1 ∨
      sc.comm_ctrl_bytes = 2 ∨ sc.comm_ctrl_bytes = 4)
    (hts : sc.ts_bytes = 0 ∨ sc.ts ≠ none)
    (hfit : frameLen sc mlen ≤ olen) (hsmall : frameLen sc mlen < U32) :
    (sc_make_message sc cmd cctrl (some p) mlen output olen).2 =
      frameLen sc mlen ∧
    ∀ j, j < frameLen sc mlen →
      (sc_make_message sc cmd cctrl (some p) mlen output olen).1 j =
        (frameBytes sc cmd cctrl mlen p).getD j 0 := by
  rw [sc_make_message_eq sc cmd cctrl mlen olen p output hfit hsmall]
  exact ⟨rfl, mmOut8_layout sc cmd cctrl mlen p output hcw hlw hctw
    (mmOut3_ts_region_conf sc cmd output hts)⟩

/-- C6 witness: encoding command 5, control 99, payload 0A 14 in scDemo over
the constant-7 output memory returns 8 and puts the checksum 37 of
05 02 0A 14 at offset 6, between the payload (offsets 4-5) and the control
value 99 at offset 7. -/
theorem C6_encoder_layout_witness :
    (sc_make_message scDemo 5 99 (some [10, 20]) 2 (fun _ => 7) 100).2 =
      8 ∧
    (sc_make_message scDemo 5 99 (some [10, 20]) 2 (fun _ => 7) 100).1 6 =
      37 ∧
    (sc_make_message scDemo 5 99 (some [10, 20]) 2 (fun _ => 7) 100).1 7 =
      99 := by
  have h := C6_encoder_layout scDemo 5 99 2 100 [10, 20] (fun _ => 7)
    (by decide) (by decide) (by decide) (Or.inl rfl) (by decide) (by decide)
  refine ⟨?_, ?_, ?_⟩
  · rw [h.1]
    decide
  · rw [h.2 6 (by decide)]
    decide
  · rw [h.2 7 (by decide)]
    decide

/-- C7: at the header checkpoint the decoded length is validated against the
length policy (equality with the fixed valid length when one is configured,
otherwise at most the maximum); on violation the frame is flushed with no
events (only message_len is updated), and from the flushed state any later
valid frame is decoded and its handler dispatched. -/
theorem C7_header_policy_violation (t : SC) (sm : List SercommMsg) (b : Nat)
    (ml : Nat)
    (hres : t.reset_bytes = SERCOMM_OMIT_RESET)
    (hsum1 : t.frame_start_bytes + t.cmd_bytes + t.ts_bytes + t.len_bytes <
      U32)
    (h1 : t.buffer_len + 1 ≠ t.frame_start_bytes)
    (h2 : t.buffer_len + 1 = t.frame_start_bytes + t.cmd_bytes + t.ts_bytes +
      t.len_bytes)
    (hml : ml = read_field (writeBytes t.buffer t.buffer_len [b])
      (t.frame_start_bytes + t.cmd_bytes + t.ts_bytes) t.len_bytes
      t.message_len)
    (hviol : (t.message_valid_len ≠ SERCOMM_IGNORE_MSG_VALID_LENGTH ∧
        ml ≠ t.message_valid_len) ∨
      (t.message_valid_len = SERCOMM_IGNORE_MSG_VALID_LENGTH ∧
        ml > t.message_max_len)) :
    sc_get_message t sm b =
      ({ t with
        buffer := writeBytes t.buffer t.buffer_len [b],
        message_len := ml,
        buffer_len := 0 }, []) ∧
    (∀ (cmd cctrl mlen : Nat) (p : List Nat) (i : Nat),
      RTH t cmd cctrl mlen p → frameLen t ml < U32 →
      dispatchScan sm cmd = some i →
      (sc_feed { t with
        buffer := writeBytes t.buffer t.buffer_len [b],
        message_len := ml,
        buffer_len := 0 } sm (frameBytes t cmd cctrl mlen p)).2 =
        [Event.handler i cmd (t.frame_start_bytes + t.cmd_bytes) mlen
          (t.frame_start_bytes + t.cmd_bytes + t.ts_bytes + t.len_bytes)
          p cctrl t.priv]) := by
  have hU1 : t.buffer_len + 1 < U32 := by omega
  have hmod : (t.buffer_len + 1) % U32 = t.buffer_len + 1 :=
    Nat.mod_eq_of_lt hU1
  have hs1 : (t.frame_start_bytes + t.cmd_bytes + t.ts_bytes + t.len_bytes) %
      U32 = t.frame_start_bytes + t.cmd_bytes + t.ts_bytes + t.len_bytes := by
    simp only [U32] at *
    omega
  have hsub : t.frame_start_bytes + t.cmd_bytes + t.ts_bytes + t.len_bytes -
      t.len_bytes = t.frame_start_bytes + t.cmd_bytes + t.ts_bytes := by
    omega
  have h2m : t.buffer_len + 1 = (t.frame_start_bytes + t.cmd_bytes +
      t.ts_bytes + t.len_bytes) % U32 := by
    rw [hs1]
    exact h2
  have hml2 : ml = read_field (writeBytes t.buffer t.buffer_len [b])
      ((t.frame_start_bytes + t.cmd_bytes + t.ts_bytes + t.len_bytes) % U32 -
        t.len_bytes) t.len_bytes t.message_len := by
    rw [hs1, hsub]
    exact hml
  have hp : (t.message_valid_len ≠ SERCOMM_IGNORE_MSG_VALID_LENGTH ∧
      read_field (writeBytes t.buffer t.buffer_len [b])
        ((t.frame_start_bytes + t.cmd_bytes + t.ts_bytes + t.len_bytes) %
          U32 - t.len_bytes) t.len_bytes t.message_len ≠
        t.message_valid_len) ∨
      (t.message_valid_len = SERCOMM_IGNORE_MSG_VALID_LENGTH ∧
      read_field (writeBytes t.buffer t.buffer_len [b])
        ((t.frame_start_bytes + t.cmd_bytes + t.ts_bytes + t.len_bytes) %
          U32 - t.len_bytes) t.len_bytes t.message_len >
        t.message_max_len) := by
    rw [← hml2]
    exact hviol
  constructor
  · rw [sc_get_message_skip t sm b hres, hmod]
    rw [sc_checkpoints_header_fail ({ t with
      buffer := writeBytes t.buffer t.buffer_len [b],
      buffer_len := t.buffer_len + 1 }) sm h1 h2m hp]
    dsimp only []
    rw [← hml2]
  · intro cmd cctrl mlen p i H hstale hdisp
    obtain ⟨tf, hfeed, htb⟩ := roundtrip_main ({ t with
      buffer := writeBytes t.buffer t.buffer_len [b],
      message_len := ml,
      buffer_len := 0 }) sm cmd cctrl mlen p
      ⟨H.hcw, H.hlw, H.hctw, H.hhs, H.hhw, H.hsmall, H.hml, H.hp, H.hcmd,
        H.hcc, H.hpol1, H.hpol2, H.hres⟩ hstale rfl i hdisp
    have hfb : frameBytes { t with
        buffer := writeBytes t.buffer t.buffer_len [b],
        message_len := ml,
        buffer_len := 0 } cmd cctrl mlen p =
        frameBytes t cmd cctrl mlen p := rfl
    rw [← hfb, hfeed]

/-- C7 witness: in scDemo after the buffered bytes 00 01 05, the length byte
200 exceeds the maximum 10, so the frame is flushed with no events; the
valid frame for command 5 with payload 0A 14 fed next is decoded and
dispatched to entry 1. -/
theorem C7_header_policy_violation_witness :
    (sc_get_message { scDemo with
      buffer := fun j => List.getD [0, 1, 5] j 0,
      buffer_len := 3 } smDemo 200).2 = [] ∧
    (sc_get_message { scDemo with
      buffer := fun j => List.getD [0, 1, 5] j 0,
      buffer_len := 3 } smDemo 200).1.buffer_len = 0 ∧
    (sc_feed (sc_get_message { scDemo with
      buffer := fun j => List.getD [0, 1, 5] j 0,
      buffer_len := 3 } smDemo 200).1 smDemo
      (frameBytes scDemo 5 99 2 [10, 20])).2 =
      [Event.handler 1 5 3 2 4 [10, 20] 99 0] := by
  have h := C7_header_policy_violation { scDemo with
      buffer := fun j => List.getD [0, 1, 5] j 0,
      buffer_len := 3 } smDemo 200 _ rfl (by decide) (by decide) (by decide)
    rfl (Or.inr ⟨rfl, by decide⟩)
  refine ⟨by rw [h.1], by rw [h.1], ?_⟩
  rw [h.1]
  exact h.2 5 99 2 [10, 20] 1
    ⟨by decide, by decide, by decide, by decide, by decide, by decide,
      by decide, by decide, by decide, by decide, by decide, by decide,
      Or.inl rfl⟩ (by decide) (by decide)

/-- C9: with reset detection enabled (run length L, not the disabling
sentinel, nonzero, below 256) and a reset callback installed: on any state
of the same configuration whose counter has reached L - 1 (in particular
mid-frame), one more reset byte invokes the callback, flushes the buffer and
returns immediately with no checkpoint processing; feeding exactly L reset
bytes from a counter of 0 emits the reset event exactly once and leaves the
buffer flushed; and a valid frame fed after the run is still decoded and
dispatched. -/
theorem C9_reset_sequence (sc : SC) (sm : List SercommMsg) (L : Nat)
    (hOM : sc.reset_bytes ≠ SERCOMM_OMIT_RESET)
    (hL : sc.reset_bytes = L) (hL0 : L ≠ 0) (hLlt : L < 256)
    (hc0 : sc.buffer_reset_bytes = 0) (hr : sc.reset = true) :
    (∀ (u : SC), sameConfig u sc → u.buffer_reset_bytes = L - 1 →
      sc_get_message u sm sc.reset_byte =
        ({ u with
          buffer := writeBytes u.buffer u.buffer_len [sc.reset_byte],
          buffer_len := 0,
          buffer_reset_bytes := L }, [Event.reset])) ∧
    ((sc_feed sc sm (List.replicate L sc.reset_byte)).2.count Event.reset =
        1 ∧
      (sc_feed sc sm (List.replicate L sc.reset_byte)).1.buffer_len = 0 ∧
      (sc_feed sc sm
        (List.replicate L sc.reset_byte)).1.buffer_reset_bytes = L) ∧
    (∀ (cmd cctrl mlen : Nat) (p : List Nat) (i : Nat),
      RTH sc cmd cctrl mlen p →
      frameLen sc
        (sc_feed sc sm (List.replicate L sc.reset_byte)).1.message_len <
        U32 →
      dispatchScan sm cmd = some i →
      (sc_feed (sc_feed sc sm (List.replicate L sc.reset_byte)).1 sm
        (frameBytes sc cmd cctrl mlen p)).2 =
        [Event.handler i cmd (sc.frame_start_bytes + sc.cmd_bytes) mlen
          (sc.frame_start_bytes + sc.cmd_bytes + sc.ts_bytes + sc.len_bytes)
          p cctrl sc.priv]) := by
  obtain ⟨k1, k2, k3⟩ := reset_run_count sm L sc hOM hr (by omega)
  refine ⟨?_, ⟨?_, ?_, ?_⟩, ?_⟩
  · intro u hcfg hcnt
    obtain ⟨g1, g2, g3, g4, g5, g6, g7, g8, g9, g10, g11, g12, g13, g14,
      g15⟩ := hcfg
    rw [← g9]
    rw [sc_get_message_trigger u sm (by rw [g10]; exact hOM)
      (by rw [g10, hL, hcnt]; omega)]
    rw [hcnt]
    rw [show (L - 1 + 1) % 256 = L from by omega]
    have hur : u.reset = true := by
      rw [g11]
      exact hr
    rw [hur]
    rfl
  · rw [k2]
    have hx : sc.buffer_reset_bytes < sc.reset_bytes ∧
        sc.reset_bytes ≤ sc.buffer_reset_bytes + L := by omega
    rw [if_pos hx]
  · exact k3 (by omega)
  · rw [k1]
    omega
  · intro cmd cctrl mlen p i H hstale hdisp
    have hcfg := sc_feed_config sc sm (List.replicate L sc.reset_byte)
    have HU := RTH_congr (sc_feed sc sm (List.replicate L sc.reset_byte)).1
      sc hcfg cmd cctrl mlen p H
    have hb0 : (sc_feed sc sm
        (List.replicate L sc.reset_byte)).1.buffer_len = 0 :=
      k3 (by omega)
    have hstU : frameLen (sc_feed sc sm (List.replicate L sc.reset_byte)).1
        (sc_feed sc sm (List.replicate L sc.reset_byte)).1.message_len <
        U32 := by
      rw [frameLen_congr _ sc hcfg]
      exact hstale
    obtain ⟨tf, hfeed, htb⟩ := roundtrip_main
      (sc_feed sc sm (List.replicate L sc.reset_byte)).1 sm cmd cctrl mlen p
      HU hstU hb0 i hdisp
    rw [← frameBytes_congr (sc_feed sc sm (List.replicate L sc.reset_byte)).1
      sc hcfg cmd cctrl mlen p, hfeed]
    obtain ⟨g1, g2, g3, g4, g5, g6, g7, g8, g9, g10, g11, g12, g13, g14,
      g15⟩ := hcfg
    simp only [g1, g2, g4, g8, g14]

/-- C9 witness: in scRun (run length 3, reset byte FF, callback installed)
three FF bytes emit exactly one reset event and flush; from a mid-frame
state with counter 2, one FF triggers immediately; and the frame for
command 5 with payload 0A 14 fed after the run is dispatched to entry 1. -/
theorem C9_reset_sequence_witness :
    (sc_feed scRun smDemo (List.replicate 3 scRun.reset_byte)).2.count
      Event.reset = 1 ∧
    (sc_feed scRun smDemo (List.replicate 3 scRun.reset_byte)).1.buffer_len =
      0 ∧
    (sc_get_message { scRun with
      buffer := fun j => List.getD [0, 1, 5, 2] j 0,
      buffer_len := 4,
      buffer_reset_bytes := 2 } smDemo scRun.reset_byte).2 = [Event.reset] ∧
    (sc_feed (sc_feed scRun smDemo (List.replicate 3 scRun.reset_byte)).1
      smDemo (frameBytes scRun 5 0 2 [10, 20])).2 =
      [Event.handler 1 5 3 2 4 [10, 20] 0 0] := by
  have h := C9_reset_sequence scRun smDemo 3 (by decide) rfl (by decide)
    (by decide) rfl rfl
  have hmid := h.1 { scRun with
      buffer := fun j => List.getD [0, 1, 5, 2] j 0,
      buffer_len := 4,
      buffer_reset_bytes := 2 }
    ⟨rfl, rfl, rfl, rfl, rfl, rfl, rfl, rfl, rfl, rfl, rfl, rfl, rfl, rfl,
      rfl⟩ rfl
  have hrec := h.2.2 5 0 2 [10, 20] 1
    ⟨by decide, by decide, by decide, by decide, by decide, by decide,
      by decide, by decide, by decide, by decide, by decide, by decide,
      Or.inr ⟨by decide, by decide⟩⟩ (by decide) (by decide)
  refine ⟨h.2.1.1, h.2.1.2.1, ?_, ?_⟩
  · rw [hmid]
  · rw [hrec]
    rfl


/-- C10: sc_get_message clears the reset counter only on a byte different
from reset_byte; triggering does not clear it.  Hence with run length L
(2 ≤ L ≤ 127) and the counter at 0, a run of 2L reset bytes triggers the
reset exactly once: once on the whole run, once already after L bytes,
after which the counter stands at L (not 0) and the second half of the run
triggers nothing. -/
theorem C10_reset_counter_retention (sc : SC) (sm : List SercommMsg)
    (L : Nat)
    (hL : sc.reset_bytes = L) (h2L : 2 ≤ L) (hL127 : L ≤ 127)
    (hc0 : sc.buffer_reset_bytes = 0) (hr : sc.reset = true) :
    ((sc_feed sc sm (List.replicate (2 * L) sc.reset_byte)).2.count
      Event.reset = 1) ∧
    ((sc_feed sc sm (List.replicate L sc.reset_byte)).2.count Event.reset =
      1) ∧
    ((sc_feed sc sm (List.replicate L sc.reset_byte)).1.buffer_reset_bytes =
      L) ∧
    ((sc_feed (sc_feed sc sm (List.replicate L sc.reset_byte)).1 sm
      (List.replicate L sc.reset_byte)).2.count Event.reset = 0) := by
  have hOM : sc.reset_bytes ≠ SERCOMM_OMIT_RESET := by
    simp only [SERCOMM_OMIT_RESET]
    omega
  obtain ⟨kA1, kA2, kA3⟩ := reset_run_count sm (2 * L) sc hOM hr (by omega)
  obtain ⟨k1, k2, k3⟩ := reset_run_count sm L sc hOM hr (by omega)
  refine ⟨?_, ?_, ?_, ?_⟩
  · rw [kA2]
    have hx : sc.buffer_reset_bytes < sc.reset_bytes ∧
        sc.reset_bytes ≤ sc.buffer_reset_bytes + 2 * L := by omega
    rw [if_pos hx]
  · rw [k2]
    have hx : sc.buffer_reset_bytes < sc.reset_bytes ∧
        sc.reset_bytes ≤ sc.buffer_reset_bytes + L := by omega
    rw [if_pos hx]
  · rw [k1]
    omega
  · have hcfg := sc_feed_config sc sm (List.replicate L sc.reset_byte)
    obtain ⟨g1, g2, g3, g4, g5, g6, g7, g8, g9, g10, g11, g12, g13, g14,
      g15⟩ := hcfg
    have hOMu : (sc_feed sc sm
        (List.replicate L sc.reset_byte)).1.reset_bytes ≠
        SERCOMM_OMIT_RESET := by
      rw [g10]
      exact hOM
    have hru : (sc_feed sc sm (List.replicate L sc.reset_byte)).1.reset =
        true := by
      rw [g11]
      exact hr
    obtain ⟨j1, j2, j3⟩ := reset_run_count sm L
      (sc_feed sc sm (List.replicate L sc.reset_byte)).1 hOMu hru
      (by rw [k1]; omega)
    rw [g9, k1, g10] at j2
    rw [j2]
    have hx : ¬(sc.buffer_reset_bytes + L < sc.reset_bytes ∧
        sc.reset_bytes ≤ sc.buffer_reset_bytes + L + L) := by omega
    rw [if_neg hx]

/-- C10 witness: in scRun2 (run length 2) four FF bytes trigger exactly one
reset event, and after the first two FF bytes the counter stands at 2,
not 0. -/
theorem C10_reset_counter_retention_witness :
    (sc_feed scRun2 smDemo (List.replicate 4 scRun2.reset_byte)).2.count
      Event.reset = 1 ∧
    (sc_feed scRun2 smDemo
      (List.replicate 2 scRun2.reset_byte)).1.buffer_reset_bytes = 2 := by
  have h := C10_reset_counter_retention scRun2 smDemo 2 rfl (by decide)
    (by decide) rfl rfl
  exact ⟨h.1, h.2.2.1⟩

/-- C1 (amended): the round trip holds under the hypotheses the source
requires: supported field widths, a hasher configured, the payload length
within the configured policy, values that fit their fields, the frame
fitting the output and not wrapping 32 bits, a flushed decoder with a
non-wrapping stale message_len, a registered handler for the command, and
reset detection disabled or no frame byte equal to the reset byte (the RTH
bundle).  Then feeding the encoder output byte-for-byte dispatches the
registered handler exactly once with the original payload, command and
control value, and flushes the decoder. -/
theorem C1_roundtrip_amended (sc : SC) (sm : List SercommMsg)
    (cmd cctrl olen : Nat) (p : List Nat)
    (H : RTH sc cmd cctrl p.length p)
    (hfit : frameLen sc p.length ≤ olen)
    (hstale : frameLen sc sc.message_len < U32)
    (hb0 : sc.buffer_len = 0)
    (i : Nat) (hdisp : dispatchScan sm cmd = some i) :
    (sc_feed sc sm (sc_encode sc cmd cctrl (some p) p.length olen)).2 =
      [Event.handler i cmd (sc.frame_start_bytes + sc.cmd_bytes) p.length
        (sc.frame_start_bytes + sc.cmd_bytes + sc.ts_bytes + sc.len_bytes)
        p cctrl sc.priv] ∧
    (sc_feed sc sm
      (sc_encode sc cmd cctrl (some p) p.length olen)).1.buffer_len = 0 := by
  rw [sc_encode_eq_frameBytes sc cmd cctrl p.length olen p H.hcw H.hlw
    H.hctw hfit H.hsmall]
  obtain ⟨t, ht, htb⟩ := roundtrip_main sc sm cmd cctrl p.length p H hstale
    hb0 i hdisp
  rw [ht]
  exact ⟨rfl, htb⟩

/-- C1 witness: scDemo round-trips command 5, control 99, payload 0A 14:
the handler of entry 1 fires exactly once with the original payload,
command and control value, and the decoder is flushed. -/
theorem C1_roundtrip_amended_witness :
    (sc_feed scDemo smDemo (sc_encode scDemo 5 99 (some [10, 20]) 2 100)).2 =
      [Event.handler 1 5 3 2 4 [10, 20] 99 0] ∧
    (sc_feed scDemo smDemo
      (sc_encode scDemo 5 99 (some [10, 20]) 2 100)).1.buffer_len = 0 := by
  exact C1_roundtrip_amended scDemo smDemo 5 99 100 [10, 20]
    ⟨by decide, by decide, by decide, by decide, by decide, by decide,
      by decide, rfl, by decide, by decide, by decide, by decide,
      Or.inl rfl⟩ (by decide) (by decide) rfl 1 (by decide)

/-- C1 counterexample: in scReset (reset detection enabled with run length 2
on byte AA) the payload AA AA satisfies the length policy and command 5 is
registered, the encoder emits a well-formed frame, yet feeding that frame
back invokes no handler at all: the two payload bytes AA AA trigger the
reset logic mid-frame and the frame is flushed before completion.  The
claim as stated (for every configuration) is false. -/
theorem C1_reset_midframe_counterexample :
    scReset.buffer_len = 0 ∧
    scReset.message_valid_len = SERCOMM_IGNORE_MSG_VALID_LENGTH ∧
    (2 : Nat) ≤ scReset.message_max_len ∧
    dispatchScan smDemo 5 = some 1 ∧
    sc_encode scReset 5 0 (some [170, 170]) 2 100 =
      [0, 1, 5, 2, 170, 170, 91, 0] ∧
    (sc_feed scReset smDemo
      (sc_encode scReset 5 0 (some [170, 170]) 2 100)).2 = [] := by
  refine ⟨rfl, rfl, by decide, by decide, by decide, by decide⟩

end Sercomm
